import Mathlib

/-!
Shallow embedding of the dragon-gate runtime rules engine (TypeScript) in Lean 4.

Conventions used throughout:
* JS numbers are modelled as `ℚ` (exact rationals).  The verified claims only
  depend on ordering, equality with zero, integer flooring and field
  arithmetic, where float and rational behaviour agree on the inputs used;
  float-specific behaviour (NaN, Infinity, rounding error) is outside the
  embedding and is flagged by a comment wherever the source could produce it.
* A thrown JS exception is an `Except.error` carrying the message string.
* JS objects with string keys (StatBlock, FormulaContext, Map) are modelled as
  insertion-ordered association lists; assignment updates the first matching
  key in place or appends, exactly like JS property assignment on an object
  with unique keys.
-/

/- Batteries marks the arithmetic on `Rat` irreducible; concrete evaluation of
the embedded interpreters needs it to reduce. -/
attribute [local semireducible] Rat.add Rat.mul Rat.sub Rat.inv

deriving instance DecidableEq for Except

namespace DragonGate

/-! ### Tokenizer (src/src/engine/formula/Tokenizer.ts) -/

inductive TokenType where
  | NUMBER
  | IDENTIFIER
  | OPERATOR
  | COMPARATOR
  | LOGIC
  | LPAREN
  | RPAREN
  | COMMA
  | TERNARY_Q
  | TERNARY_COLON
  | EOF
deriving DecidableEq, Repr

/-- Token value is `string | number` in TS; modelled as a sum. -/
inductive TokenValue where
  | num (q : ℚ)
  | str (s : String)
deriving DecidableEq, Repr

structure Token where
  ttype : TokenType
  value : TokenValue
  position : Nat
deriving DecidableEq, Repr

/-- Characters matched by the JS regex `\s` that can occur in formula strings. -/
def isWhitespaceChar (c : Char) : Bool :=
  c = ' ' || c = '\t' || c = '\n' || c = '\r'

def isDigitChar (c : Char) : Bool := c.isDigit

def isIdentStartChar (c : Char) : Bool :=
  (c ≥ 'a' && c ≤ 'z') || (c ≥ 'A' && c ≤ 'Z') || c = '_'

def isIdentChar (c : Char) : Bool :=
  isIdentStartChar c || c.isDigit || c = '.'

def isNumChar (c : Char) : Bool := c.isDigit || c = '.'

def digitsToNat (ds : List Char) : Nat :=
  ds.foldl (fun n c => 10 * n + (c.toNat - 48)) 0

/-- Behaviour of JS `parseFloat` on the strings produced by the number branch of
the tokenizer (a run of digits and dots): integer part, then an optional single
fractional part; anything after a second dot is ignored. -/
def jsParseFloat (cs : List Char) : ℚ :=
  let intPart := cs.takeWhile isDigitChar
  let rest := cs.drop intPart.length
  match rest with
  | '.' :: rest2 =>
      let fracPart := rest2.takeWhile isDigitChar
      (digitsToNat intPart : ℚ) + (digitsToNat fracPart : ℚ) / ((10 : ℚ) ^ fracPart.length)
  | _ => (digitsToNat intPart : ℚ)

def isTwoCharComparator (s : String) : Bool :=
  s = "<=" || s = ">=" || s = "==" || s = "!="

def isTwoCharLogic (s : String) : Bool :=
  s = "&&" || s = "||"

def isSingleOperator (c : Char) : Bool :=
  c = '+' || c = '-' || c = '*' || c = '/' || c = '%'

/-- One step per scanned token; `fuel` dominates the input length so the
recursion below always terminates before fuel runs out on real inputs. -/
def tokenizeAux : Nat → List Char → Nat → List Token → Except String (List Token)
  | 0, _, _, _ => .error "tokenizer fuel exhausted"
  | _ + 1, [], pos, acc =>
      .ok (acc.reverse ++ [⟨.EOF, .str "", pos⟩])
  | fuel + 1, c :: cs, pos, acc =>
      if isWhitespaceChar c then
        tokenizeAux fuel cs (pos + 1) acc
      else if isDigitChar c || (c = '.' && (match cs with
            | c2 :: _ => isDigitChar c2
            | [] => false)) then
        let numChars := (c :: cs).takeWhile isNumChar
        let tok : Token := ⟨.NUMBER, .num (jsParseFloat numChars), pos⟩
        tokenizeAux fuel ((c :: cs).drop numChars.length) (pos + numChars.length) (tok :: acc)
      else if isIdentStartChar c then
        let identChars := (c :: cs).takeWhile isIdentChar
        let tok : Token := ⟨.IDENTIFIER, .str (String.mk identChars), pos⟩
        tokenizeAux fuel ((c :: cs).drop identChars.length) (pos + identChars.length) (tok :: acc)
      else
        let twoChar := String.mk ((c :: cs).take 2)
        if isTwoCharComparator twoChar then
          tokenizeAux fuel (cs.drop 1) (pos + 2) (⟨.COMPARATOR, .str twoChar, pos⟩ :: acc)
        else if isTwoCharLogic twoChar then
          tokenizeAux fuel (cs.drop 1) (pos + 2) (⟨.LOGIC, .str twoChar, pos⟩ :: acc)
        else if isSingleOperator c then
          tokenizeAux fuel cs (pos + 1) (⟨.OPERATOR, .str (String.mk [c]), pos⟩ :: acc)
        else if c = '<' || c = '>' then
          tokenizeAux fuel cs (pos + 1) (⟨.COMPARATOR, .str (String.mk [c]), pos⟩ :: acc)
        else if c = '!' then
          tokenizeAux fuel cs (pos + 1) (⟨.LOGIC, .str (String.mk [c]), pos⟩ :: acc)
        else if c = '(' then
          tokenizeAux fuel cs (pos + 1) (⟨.LPAREN, .str (String.mk [c]), pos⟩ :: acc)
        else if c = ')' then
          tokenizeAux fuel cs (pos + 1) (⟨.RPAREN, .str (String.mk [c]), pos⟩ :: acc)
        else if c = ',' then
          tokenizeAux fuel cs (pos + 1) (⟨.COMMA, .str (String.mk [c]), pos⟩ :: acc)
        else if c = '?' then
          tokenizeAux fuel cs (pos + 1) (⟨.TERNARY_Q, .str (String.mk [c]), pos⟩ :: acc)
        else if c = ':' then
          tokenizeAux fuel cs (pos + 1) (⟨.TERNARY_COLON, .str (String.mk [c]), pos⟩ :: acc)
        else
          .error ("Unexpected character " ++ String.mk [c] ++ " at position " ++ toString pos)

def tokenize (formula : String) : Except String (List Token) :=
  tokenizeAux (formula.length + 1) formula.toList 0 []

/-! ### Formula AST (src/src/engine/formula/types.ts) -/

inductive ASTNode where
  | Number (value : ℚ)
  | Identifier (name : String)
  | BinaryOp (operator : String) (left right : ASTNode)
  | UnaryOp (operator : String) (operand : ASTNode)
  | Ternary (condition ifTrue ifFalse : ASTNode)
  | FunctionCall (name : String) (args : List ASTNode)
deriving Repr

/-- Nested formula context: `FormulaContext = ⟨key: number | FormulaContext⟩`. -/
inductive CtxVal where
  | num (q : ℚ)
  | obj (fields : List (String × CtxVal))

abbrev FormulaContext := List (String × CtxVal)

/-! ### Recursive-descent parser (src/src/engine/formula/FormulaParser.ts)

The TS parser mutates `this.pos`; the embedding passes the position explicitly
and returns the position reached.  All parse functions take a fuel argument
that strictly decreases on every call; `parseFuel` below is large enough for
every input actually consumed, since each grammar level either consumes a token
or moves to the next-higher precedence level. -/

abbrev ParseRes := Except String (ASTNode × Nat)

/-- Placeholder for an out-of-range token read.  The TS parser never reads past
the EOF token that `tokenize` always appends. -/
def dummyToken : Token := ⟨.EOF, .str "", 0⟩

def currentTok (tokens : List Token) (pos : Nat) : Token :=
  tokens.getD pos dummyToken

def tokenTypeName : TokenType → String
  | .NUMBER => "NUMBER"
  | .IDENTIFIER => "IDENTIFIER"
  | .OPERATOR => "OPERATOR"
  | .COMPARATOR => "COMPARATOR"
  | .LOGIC => "LOGIC"
  | .LPAREN => "LPAREN"
  | .RPAREN => "RPAREN"
  | .COMMA => "COMMA"
  | .TERNARY_Q => "TERNARY_Q"
  | .TERNARY_COLON => "TERNARY_COLON"
  | .EOF => "EOF"

def expectTok (tokens : List Token) (pos : Nat) (t : TokenType) : Except String (Token × Nat) :=
  let token := currentTok tokens pos
  if token.ttype = t then .ok (token, pos + 1)
  else .error ("Expected " ++ tokenTypeName t ++ " but got " ++ tokenTypeName token.ttype ++
    " at position " ++ toString token.position)

def tokHasValue (tok : Token) (s : String) : Bool :=
  tok.value = TokenValue.str s

mutual

def parseTernary (tokens : List Token) : Nat → Nat → ParseRes
  | 0, _ => .error "parser fuel exhausted"
  | fuel + 1, pos =>
      match parseLogicalOr tokens fuel pos with
      | .error e => .error e
      | .ok (node, pos1) =>
          if (currentTok tokens pos1).ttype = TokenType.TERNARY_Q then
            match parseTernary tokens fuel (pos1 + 1) with
            | .error e => .error e
            | .ok (ifTrue, pos2) =>
                match expectTok tokens pos2 .TERNARY_COLON with
                | .error e => .error e
                | .ok (_, pos3) =>
                    match parseTernary tokens fuel pos3 with
                    | .error e => .error e
                    | .ok (ifFalse, pos4) =>
                        .ok (.Ternary node ifTrue ifFalse, pos4)
          else .ok (node, pos1)
termination_by structural fuel pos => fuel

def parseLogicalOr (tokens : List Token) : Nat → Nat → ParseRes
  | 0, _ => .error "parser fuel exhausted"
  | fuel + 1, pos =>
      match parseLogicalAnd tokens fuel pos with
      | .error e => .error e
      | .ok (node, pos1) => parseLogicalOrLoop tokens fuel node pos1
termination_by structural fuel pos => fuel

def parseLogicalOrLoop (tokens : List Token) : Nat → ASTNode → Nat → ParseRes
  | 0, _, _ => .error "parser fuel exhausted"
  | fuel + 1, node, pos =>
      let tok := currentTok tokens pos
      if tok.ttype = TokenType.LOGIC && tokHasValue tok "||" then
        match parseLogicalAnd tokens fuel (pos + 1) with
        | .error e => .error e
        | .ok (right, pos1) => parseLogicalOrLoop tokens fuel (.BinaryOp "||" node right) pos1
      else .ok (node, pos)
termination_by structural fuel node pos => fuel

def parseLogicalAnd (tokens : List Token) : Nat → Nat → ParseRes
  | 0, _ => .error "parser fuel exhausted"
  | fuel + 1, pos =>
      match parseComparison tokens fuel pos with
      | .error e => .error e
      | .ok (node, pos1) => parseLogicalAndLoop tokens fuel node pos1
termination_by structural fuel pos => fuel

def parseLogicalAndLoop (tokens : List Token) : Nat → ASTNode → Nat → ParseRes
  | 0, _, _ => .error "parser fuel exhausted"
  | fuel + 1, node, pos =>
      let tok := currentTok tokens pos
      if tok.ttype = TokenType.LOGIC && tokHasValue tok "&&" then
        match parseComparison tokens fuel (pos + 1) with
        | .error e => .error e
        | .ok (right, pos1) => parseLogicalAndLoop tokens fuel (.BinaryOp "&&" node right) pos1
      else .ok (node, pos)
termination_by structural fuel node pos => fuel

def parseComparison (tokens : List Token) : Nat → Nat → ParseRes
  | 0, _ => .error "parser fuel exhausted"
  | fuel + 1, pos =>
      match parseAdditive tokens fuel pos with
      | .error e => .error e
      | .ok (node, pos1) => parseComparisonLoop tokens fuel node pos1
termination_by structural fuel pos => fuel

def parseComparisonLoop (tokens : List Token) : Nat → ASTNode → Nat → ParseRes
  | 0, _, _ => .error "parser fuel exhausted"
  | fuel + 1, node, pos =>
      let tok := currentTok tokens pos
      if tok.ttype = TokenType.COMPARATOR then
        let op := match tok.value with
          | .str s => s
          | .num _ => ""
        match parseAdditive tokens fuel (pos + 1) with
        | .error e => .error e
        | .ok (right, pos1) => parseComparisonLoop tokens fuel (.BinaryOp op node right) pos1
      else .ok (node, pos)
termination_by structural fuel node pos => fuel

def parseAdditive (tokens : List Token) : Nat → Nat → ParseRes
  | 0, _ => .error "parser fuel exhausted"
  | fuel + 1, pos =>
      match parseMultiplicative tokens fuel pos with
      | .error e => .error e
      | .ok (node, pos1) => parseAdditiveLoop tokens fuel node pos1
termination_by structural fuel pos => fuel

def parseAdditiveLoop (tokens : List Token) : Nat → ASTNode → Nat → ParseRes
  | 0, _, _ => .error "parser fuel exhausted"
  | fuel + 1, node, pos =>
      let tok := currentTok tokens pos
      if tok.ttype = TokenType.OPERATOR && (tokHasValue tok "+" || tokHasValue tok "-") then
        let op := match tok.value with
          | .str s => s
          | .num _ => ""
        match parseMultiplicative tokens fuel (pos + 1) with
        | .error e => .error e
        | .ok (right, pos1) => parseAdditiveLoop tokens fuel (.BinaryOp op node right) pos1
      else .ok (node, pos)
termination_by structural fuel node pos => fuel

def parseMultiplicative (tokens : List Token) : Nat → Nat → ParseRes
  | 0, _ => .error "parser fuel exhausted"
  | fuel + 1, pos =>
      match parseUnary tokens fuel pos with
      | .error e => .error e
      | .ok (node, pos1) => parseMultiplicativeLoop tokens fuel node pos1
termination_by structural fuel pos => fuel

def parseMultiplicativeLoop (tokens : List Token) : Nat → ASTNode → Nat → ParseRes
  | 0, _, _ => .error "parser fuel exhausted"
  | fuel + 1, node, pos =>
      let tok := currentTok tokens pos
      if tok.ttype = TokenType.OPERATOR &&
          (tokHasValue tok "*" || tokHasValue tok "/" || tokHasValue tok "%") then
        let op := match tok.value with
          | .str s => s
          | .num _ => ""
        match parseUnary tokens fuel (pos + 1) with
        | .error e => .error e
        | .ok (right, pos1) => parseMultiplicativeLoop tokens fuel (.BinaryOp op node right) pos1
      else .ok (node, pos)
termination_by structural fuel node pos => fuel

def parseUnary (tokens : List Token) : Nat → Nat → ParseRes
  | 0, _ => .error "parser fuel exhausted"
  | fuel + 1, pos =>
      let tok := currentTok tokens pos
      if tok.ttype = TokenType.OPERATOR && tokHasValue tok "-" then
        match parseUnary tokens fuel (pos + 1) with
        | .error e => .error e
        | .ok (operand, pos1) => .ok (.UnaryOp "-" operand, pos1)
      else if tok.ttype = TokenType.LOGIC && tokHasValue tok "!" then
        match parseUnary tokens fuel (pos + 1) with
        | .error e => .error e
        | .ok (operand, pos1) => .ok (.UnaryOp "!" operand, pos1)
      else parsePrimary tokens fuel pos
termination_by structural fuel pos => fuel

def parsePrimary (tokens : List Token) : Nat → Nat → ParseRes
  | 0, _ => .error "parser fuel exhausted"
  | fuel + 1, pos =>
      let token := currentTok tokens pos
      match token.ttype, token.value with
      | .NUMBER, .num v => .ok (.Number v, pos + 1)
      | .IDENTIFIER, .str name =>
          if (currentTok tokens (pos + 1)).ttype = TokenType.LPAREN then
            parseFunctionCall tokens fuel name (pos + 1)
          else .ok (.Identifier name, pos + 1)
      | .LPAREN, _ =>
          match parseTernary tokens fuel (pos + 1) with
          | .error e => .error e
          | .ok (node, pos1) =>
              match expectTok tokens pos1 .RPAREN with
              | .error e => .error e
              | .ok (_, pos2) => .ok (node, pos2)
      | _, _ =>
          .error ("Unexpected token " ++ tokenTypeName token.ttype ++ " at position " ++
            toString token.position)
termination_by structural fuel pos => fuel

def parseFunctionCall (tokens : List Token) : Nat → String → Nat → ParseRes
  | 0, _, _ => .error "parser fuel exhausted"
  | fuel + 1, name, pos =>
      match expectTok tokens pos .LPAREN with
      | .error e => .error e
      | .ok (_, pos1) =>
          if (currentTok tokens pos1).ttype = TokenType.RPAREN then
            .ok (.FunctionCall name [], pos1 + 1)
          else
            match parseTernary tokens fuel pos1 with
            | .error e => .error e
            | .ok (arg, pos2) => parseFunctionCallArgs tokens fuel name [arg] pos2
termination_by structural fuel name pos => fuel

def parseFunctionCallArgs (tokens : List Token) : Nat → String → List ASTNode → Nat → ParseRes
  | 0, _, _, _ => .error "parser fuel exhausted"
  | fuel + 1, name, args, pos =>
      if (currentTok tokens pos).ttype = TokenType.COMMA then
        match parseTernary tokens fuel (pos + 1) with
        | .error e => .error e
        | .ok (arg, pos1) => parseFunctionCallArgs tokens fuel name (args ++ [arg]) pos1
      else
        match expectTok tokens pos .RPAREN with
        | .error e => .error e
        | .ok (_, pos1) => .ok (.FunctionCall name args, pos1)
termination_by structural fuel name args pos => fuel

end

/-- Fuel bound that the grammar can never exhaust on a token list this long:
each of the (at most 12) grammar levels per consumed token decrements fuel
once. -/
def parseFuel (tokens : List Token) : Nat :=
  (tokens.length + 1) * 16

/-- Parse a token stream starting at position 0 and require EOF afterwards,
as `FormulaParser.parse` does. -/
def parseCore (tokens : List Token) : Except String ASTNode :=
  match parseTernary tokens (parseFuel tokens) 0 with
  | .error e => .error e
  | .ok (ast, pos) =>
      match expectTok tokens pos .EOF with
      | .error e => .error e
      | .ok _ => .ok ast

/-! ### Evaluator (src/src/engine/formula/FormulaParser.ts, evaluate and helpers) -/

def ratFloor (q : ℚ) : ℚ := (⌊q⌋ : ℚ)

def ratCeil (q : ℚ) : ℚ := (⌈q⌉ : ℚ)

/-- JS `Math.round` rounds half away from zero toward positive infinity. -/
def ratRound (q : ℚ) : ℚ := (⌊q + 1/2⌋ : ℚ)

def ratAbs (q : ℚ) : ℚ := |q|

/-- Truncation toward zero, as JS `%` uses for its implicit quotient. -/
def ratTrunc (q : ℚ) : ℚ :=
  if q < 0 then -(⌊-q⌋ : ℚ) else (⌊q⌋ : ℚ)

/-- JS remainder: sign of the dividend, quotient truncated toward zero.
Only ever applied with a nonzero divisor (the zero case throws first). -/
def jsMod (a b : ℚ) : ℚ := a - b * ratTrunc (a / b)

/-- Rational stand-in for JS `Math.sqrt`.  The exact value of a square root is
irrational in general and no verified claim depends on the value `sqrt`
returns, only on evaluation succeeding; this abstraction is total on ℚ
(JS returns NaN for negative inputs, which ℚ cannot represent). -/
def ratSqrt (q : ℚ) : ℚ :=
  (Nat.sqrt q.num.toNat : ℚ) / (Nat.sqrt q.den : ℚ)

/-- Rational stand-in for JS `Math.pow`.  Exact for integer exponents with a
nonzero base; abstracted to 0 elsewhere (no verified claim uses `pow`). -/
def ratPow (b e : ℚ) : ℚ :=
  if e.den = 1 then
    if 0 ≤ e.num then b ^ e.num.toNat
    else if b = 0 then 0
    else (b ^ (-e.num).toNat)⁻¹
  else 0

/-- JS `name.split(".")`: splits at every dot, keeping empty segments. -/
def splitDotsAux : List Char → List Char → List String
  | [], cur => [String.mk cur.reverse]
  | '.' :: rest, cur => String.mk cur.reverse :: splitDotsAux rest []
  | c :: rest, cur => splitDotsAux rest (c :: cur)

def splitNameParts (name : String) : List String := splitDotsAux name.toList []

/-- Walk the context as a tree of nested mappings; a path ending anywhere but a
number resolves to `undefined` (here `none`).  JS property lookup would also
see prototype-chain keys such as `toString`; those resolve to non-numbers and
hence to `undefined` in the source as well, so plain association-list lookup
is faithful for the observable result. -/
def resolveParts : List String → CtxVal → Option ℚ
  | [], v =>
      match v with
      | .num q => some q
      | .obj _ => none
  | p :: ps, .obj fields =>
      match fields.lookup p with
      | some v => resolveParts ps v
      | none => none
  | _ :: _, .num _ => none

def resolveIdentifier (name : String) (context : FormulaContext) : Option ℚ :=
  resolveParts (splitNameParts name) (.obj context)

def applyBinaryOp (op : String) (left right : ℚ) : Except String ℚ :=
  if op = "+" then .ok (left + right)
  else if op = "-" then .ok (left - right)
  else if op = "*" then .ok (left * right)
  else if op = "/" then
    if right = 0 then .error "Division by zero" else .ok (left / right)
  else if op = "%" then
    if right = 0 then .error "Modulo by zero" else .ok (jsMod left right)
  else if op = "<" then .ok (if left < right then 1 else 0)
  else if op = ">" then .ok (if left > right then 1 else 0)
  else if op = "<=" then .ok (if left ≤ right then 1 else 0)
  else if op = ">=" then .ok (if left ≥ right then 1 else 0)
  else if op = "==" then .ok (if left = right then 1 else 0)
  else if op = "!=" then .ok (if left ≠ right then 1 else 0)
  else if op = "&&" then .ok (if left ≠ 0 ∧ right ≠ 0 then 1 else 0)
  else if op = "||" then .ok (if left ≠ 0 ∨ right ≠ 0 then 1 else 0)
  else .error ("Unknown operator: " ++ op)

def applyUnaryOp (op : String) (operand : ℚ) : Except String ℚ :=
  if op = "-" then .ok (-operand)
  else if op = "!" then .ok (if operand ≠ 0 then 0 else 1)
  else .error ("Unknown unary operator: " ++ op)

def isBuiltinFunction (name : String) : Bool :=
  name = "min" || name = "max" || name = "floor" || name = "ceil" || name = "round" ||
  name = "abs" || name = "sqrt" || name = "pow" || name = "clamp"

/-- Apply a built-in with already-evaluated arguments.  Arity mismatches that
JS silently turns into NaN or Infinity (for example `min()` with no arguments)
cannot be represented in ℚ and are modelled as errors; no verified claim
evaluates a built-in at a wrong arity. -/
def applyBuiltin (name : String) (args : List ℚ) : Except String ℚ :=
  if name = "min" then
    match args with
    | [] => .error "min of no arguments"
    | a :: rest => .ok (rest.foldl min a)
  else if name = "max" then
    match args with
    | [] => .error "max of no arguments"
    | a :: rest => .ok (rest.foldl max a)
  else if name = "floor" then
    match args with
    | x :: _ => .ok (ratFloor x)
    | [] => .error "floor of no arguments"
  else if name = "ceil" then
    match args with
    | x :: _ => .ok (ratCeil x)
    | [] => .error "ceil of no arguments"
  else if name = "round" then
    match args with
    | x :: _ => .ok (ratRound x)
    | [] => .error "round of no arguments"
  else if name = "abs" then
    match args with
    | x :: _ => .ok (ratAbs x)
    | [] => .error "abs of no arguments"
  else if name = "sqrt" then
    match args with
    | x :: _ => .ok (ratSqrt x)
    | [] => .error "sqrt of no arguments"
  else if name = "pow" then
    match args with
    | b :: e :: _ => .ok (ratPow b e)
    | _ => .error "pow needs two arguments"
  else if name = "clamp" then
    match args with
    | v :: lo :: hi :: _ => .ok (min (max v lo) hi)
    | _ => .error "clamp needs three arguments"
  else .error ("Unknown function: " ++ name)

mutual

/-- Mirror of `FormulaParser.evaluate`.  Note that for `BinaryOp` both operands
are always evaluated before the operator is applied (no short-circuit). -/
def evaluate : ASTNode → FormulaContext → Except String ℚ
  | .Number value, _ => .ok value
  | .Identifier name, context =>
      match resolveIdentifier name context with
      | some value => .ok value
      | none => .error ("Unknown variable: " ++ name)
  | .BinaryOp op l r, context =>
      match evaluate l context with
      | .error e => .error e
      | .ok left =>
          match evaluate r context with
          | .error e => .error e
          | .ok right => applyBinaryOp op left right
  | .UnaryOp op x, context =>
      match evaluate x context with
      | .error e => .error e
      | .ok operand => applyUnaryOp op operand
  | .Ternary c t f, context =>
      match evaluate c context with
      | .error e => .error e
      | .ok condition =>
          if condition ≠ 0 then evaluate t context else evaluate f context
  | .FunctionCall name args, context =>
      if isBuiltinFunction name then
        match evaluateArgs args context with
        | .error e => .error e
        | .ok vals => applyBuiltin name vals
      else .error ("Unknown function: " ++ name)
termination_by structural node context => node

def evaluateArgs : List ASTNode → FormulaContext → Except String (List ℚ)
  | [], _ => .ok []
  | a :: rest, context =>
      match evaluate a context with
      | .error e => .error e
      | .ok v =>
          match evaluateArgs rest context with
          | .error e => .error e
          | .ok vs => .ok (v :: vs)
termination_by structural nodes context => nodes

end

/-! ### FormulaParser instance state

The TS class holds mutable fields `tokens` and `pos` that survive between
calls (they are reset at the start of every `parse`).  The state is threaded
explicitly so that claims about the singleton's purity are real theorems. -/

structure FormulaParserState where
  tokens : List Token
  pos : Nat

def initParserState : FormulaParserState := ⟨[], 0⟩

/-- Mirror of `FormulaParser.parse`: re-tokenizes, resets `pos` to 0, parses a
ternary expression and requires EOF.  When a parse step throws, the mutable
`pos` of the TS object is left wherever scanning stopped; the exact stuck
position is unobservable (every later call resets it), so the error case
records position 0. -/
def FormulaParser.parse (st : FormulaParserState) (formula : String) :
    Except String ASTNode × FormulaParserState :=
  match tokenize formula with
  | .error e => (.error e, st)
  | .ok toks =>
      match parseTernary toks (parseFuel toks) 0 with
      | .error e => (.error e, ⟨toks, 0⟩)
      | .ok (ast, pos) =>
          match expectTok toks pos .EOF with
          | .error e => (.error e, ⟨toks, pos⟩)
          | .ok (_, pos1) => (.ok ast, ⟨toks, pos1⟩)

/-- Mirror of `FormulaParser.compute`. -/
def FormulaParser.compute (st : FormulaParserState) (formula : String)
    (context : FormulaContext) : Except String ℚ × FormulaParserState :=
  match FormulaParser.parse st formula with
  | (.error e, st1) => (.error e, st1)
  | (.ok ast, st1) => (evaluate ast context, st1)

/-- Result of `FormulaParser.compute` from a fresh parser; by
`FormulaParser.parse` resetting its state this equals the result from any
parser state. -/
def computeCore (formula : String) (context : FormulaContext) : Except String ℚ :=
  (FormulaParser.compute initParserState formula context).1

/-- Mirror of `FormulaParser.validate`: parse and report success, never
evaluating. -/
def FormulaParser.validate (st : FormulaParserState) (formula : String) :
    (Bool × Option String) × FormulaParserState :=
  match FormulaParser.parse st formula with
  | (.error e, st1) => ((false, some e), st1)
  | (.ok _, st1) => ((true, none), st1)

def validateCore (formula : String) : Bool × Option String :=
  (FormulaParser.validate initParserState formula).1

mutual

/-- Mirror of `collectVariables`: JS `Set` iterates in insertion order, so the
accumulator appends first occurrences in traversal order. -/
def collectVariables : ASTNode → List String → List String
  | .Identifier name, acc => if name ∈ acc then acc else acc ++ [name]
  | .BinaryOp _ l r, acc => collectVariables r (collectVariables l acc)
  | .UnaryOp _ x, acc => collectVariables x acc
  | .Ternary c t f, acc => collectVariables f (collectVariables t (collectVariables c acc))
  | .FunctionCall _ args, acc => collectVariablesList args acc
  | .Number _, acc => acc
termination_by structural node acc => node

def collectVariablesList : List ASTNode → List String → List String
  | [], acc => acc
  | a :: rest, acc => collectVariablesList rest (collectVariables a acc)
termination_by structural nodes acc => nodes

end

/-- Mirror of `FormulaParser.getVariables` (throws on parse failure). -/
def FormulaParser.getVariables (st : FormulaParserState) (formula : String) :
    Except String (List String) × FormulaParserState :=
  match FormulaParser.parse st formula with
  | (.error e, st1) => (.error e, st1)
  | (.ok ast, st1) => (.ok (collectVariables ast []), st1)

def getVariablesCore (formula : String) : Except String (List String) :=
  (FormulaParser.getVariables initParserState formula).1

/-! ### Stat blocks as JS objects (src/src/types/stats.ts StatBlock) -/

abbrev StatBlock := List (String × ℚ)

/-- JS property read `o[k]` (first — and only — entry with that key). -/
def objLookup : StatBlock → String → Option ℚ
  | [], _ => Option.none
  | p :: rest, k => if p.1 = k then some p.2 else objLookup rest k

/-- JS property assignment `o[k] = v`: overwrite in place if the key exists,
otherwise append (JS objects preserve insertion order). -/
def objSet (o : StatBlock) (k : String) (v : ℚ) : StatBlock :=
  if (objLookup o k).isSome then
    o.map (fun p => if p.1 = k then (k, v) else p)
  else o ++ [(k, v)]

/-- JS object spread `{ ...a, ...b }`: start from a copy of `a`, then assign
every entry of `b` in order. -/
def objMerge (a b : StatBlock) : StatBlock :=
  b.foldl (fun acc p => objSet acc p.1 p.2) a

def statBlockToCtx (o : StatBlock) : FormulaContext :=
  o.map (fun p => (p.1, CtxVal.num p.2))

/-! ### Stat engine (src/src/engine/stats/StatEngine.ts) -/

structure StatDefinition where
  id : String
  name : String
  abbr : String
  description : String
  defaultValue : ℚ
  minValue : ℚ
  maxValue : ℚ
deriving DecidableEq

structure DerivedStatDefinition where
  id : String
  name : String
  formula : String
deriving DecidableEq

structure CombatFormulas where
  physicalDamage : String
  magicDamage : String
  criticalCheck : String
  turnOrder : String
deriving DecidableEq

structure StatEngineConfig where
  primaryStats : List StatDefinition
  derivedStats : List DerivedStatDefinition
  combatFormulas : CombatFormulas
deriving DecidableEq

/-- JS `Set.add`: keeps insertion order, ignores duplicates. -/
def addIfAbsent (l : List String) (x : String) : List String :=
  if x ∈ l then l else l ++ [x]

/-- The derived-formula half of `StatEngine.validateConfig`: for each derived
stat in declaration order, the formula must parse and reference only variables
available so far, and afterwards the stat id becomes available. -/
def validateDerivedLoop : List String → List DerivedStatDefinition → Except String (List String)
  | avail, [] => .ok avail
  | avail, derived :: rest =>
      match validateCore derived.formula with
      | (false, err) =>
          .error ("Invalid formula for derived stat " ++ derived.id ++ ": " ++ err.getD "")
      | (true, _) =>
          match getVariablesCore derived.formula with
          | .error e => .error e
          | .ok requiredVars =>
              match requiredVars.find? (fun v => !(avail.contains v)) with
              | some varName =>
                  .error ("Derived stat " ++ derived.id ++ " references unknown stat " ++ varName)
              | none => validateDerivedLoop (addIfAbsent avail derived.id) rest

/-- Special variables combat formulas may reference, from
`StatEngine.validateCombatFormula`. -/
def specialVars : List String := ["EnemyDef", "EnemyRes", "EnemySpeed", "EnemyEvasion", "Level"]

def validateCombatFormula (formulaName formula : String)
    (primaryIds derivedIds : List String) : Except String Unit :=
  match validateCore formula with
  | (false, err) =>
      .error ("Invalid combat formula " ++ formulaName ++ ": " ++ err.getD "")
  | (true, _) =>
      match getVariablesCore formula with
      | .error e => .error e
      | .ok requiredVars =>
          match requiredVars.find? (fun v =>
              !(primaryIds.contains v) && !(derivedIds.contains v) && !(specialVars.contains v)) with
          | some varName =>
              .error ("Combat formula " ++ formulaName ++ " references unknown stat " ++ varName)
          | none => .ok ()

/-- Mirror of `StatEngine.validateConfig`, called by the constructor; an
`Except.error` is the constructor throwing. -/
def validateConfig (config : StatEngineConfig) : Except String Unit :=
  let primaryStatIds := config.primaryStats.map (fun s => s.id)
  let derivedStatIds := config.derivedStats.map (fun s => s.id)
  let availableVars := primaryStatIds.foldl addIfAbsent ["Level"]
  match validateDerivedLoop availableVars config.derivedStats with
  | .error e => .error e
  | .ok _ =>
      match validateCombatFormula "physicalDamage" config.combatFormulas.physicalDamage
          primaryStatIds derivedStatIds with
      | .error e => .error e
      | .ok _ =>
          match validateCombatFormula "magicDamage" config.combatFormulas.magicDamage
              primaryStatIds derivedStatIds with
          | .error e => .error e
          | .ok _ =>
              match validateCombatFormula "criticalCheck" config.combatFormulas.criticalCheck
                  primaryStatIds derivedStatIds with
              | .error e => .error e
              | .ok _ =>
                  validateCombatFormula "turnOrder" config.combatFormulas.turnOrder
                    primaryStatIds derivedStatIds

/-- Loop body of `StatEngine.calculateDerivedStats`, threading the singleton
parser state: each derived value is the floor of its formula computed against
`{ ...context, ...derived }`. -/
def calculateDerivedStatsGo (context : StatBlock) :
    List DerivedStatDefinition → FormulaParserState → StatBlock →
    Except String StatBlock × FormulaParserState
  | [], st, derived => (.ok derived, st)
  | stat :: rest, st, derived =>
      match FormulaParser.compute st stat.formula (statBlockToCtx (objMerge context derived)) with
      | (.error e, st1) => (.error e, st1)
      | (.ok value, st1) =>
          calculateDerivedStatsGo context rest st1 (objSet derived stat.id (ratFloor value))

/-- Mirror of `StatEngine.calculateDerivedStats` (the TS default `level = 1` is
passed explicitly).  A thrown formula error propagates to the caller. -/
def StatEngine.calculateDerivedStats (config : StatEngineConfig) (st : FormulaParserState)
    (primaryStats : StatBlock) (level : ℚ) : Except String StatBlock × FormulaParserState :=
  let context := objMerge primaryStats [("Level", level)]
  calculateDerivedStatsGo context config.derivedStats st []

/-- Loop body of `calculateDerivedStatsSpec` below. -/
def calculateDerivedStatsSpecGo (context : StatBlock) :
    List DerivedStatDefinition → StatBlock → Except String StatBlock
  | [], derived => .ok derived
  | stat :: rest, derived =>
      match computeCore stat.formula (statBlockToCtx (objMerge context derived)) with
      | .error e => .error e
      | .ok value =>
          calculateDerivedStatsSpecGo context rest (objSet derived stat.id (ratFloor value))

/-- The spec's reading of `calculateDerivedStats`: a pure function of the
primary stats and level alone, evaluating each declared formula in declaration
order against the primary stats, `Level` and the previously computed derived
stats, flooring each result. -/
def calculateDerivedStatsSpec (config : StatEngineConfig)
    (primaryStats : StatBlock) (level : ℚ) : Except String StatBlock :=
  calculateDerivedStatsSpecGo (objMerge primaryStats [("Level", level)]) config.derivedStats []

/-! ### Modifier stack (src/src/engine/stats/ModifierStack.ts, src/src/types/modifiers.ts) -/

inductive ModifierSource where
  | equipment
  | buff
  | debuff
  | perk
  | skill
  | item
deriving DecidableEq

inductive ModifierValueType where
  | flat
  | percent
deriving DecidableEq

structure ModifierEffect where
  stat : String
  valueType : ModifierValueType
  value : ℚ
deriving DecidableEq

structure ModifierDefinition where
  id : String
  name : String
  description : String
  effects : List ModifierEffect
  duration : Option ℚ
  stackable : Bool
  maxStacks : Option ℚ
deriving DecidableEq

structure ActiveModifierState where
  definition : ModifierDefinition
  sourceType : ModifierSource
  currentStacks : ℚ
  remainingDuration : Option ℚ
deriving DecidableEq

/-- The private `Map` of a `ModifierStack`, keyed by `definition.id` in
insertion order. -/
abbrev ModifierStack := List ActiveModifierState

def findModifier (s : ModifierStack) (id : String) : Option ActiveModifierState :=
  s.find? (fun m => m.definition.id == id)

/-- The in-place update `addModifier` performs on an existing stackable entry:
`currentStacks = Math.min(currentStacks + 1, maxStacks ?? Infinity)` (the
`Infinity` cap is a no-op, the `none` branch here) and a duration refresh when
the definition declares one. -/
def stackUpdate (definition : ModifierDefinition) (m : ActiveModifierState) :
    ActiveModifierState :=
  { m with
    currentStacks :=
      match definition.maxStacks with
      | some mx => min (m.currentStacks + 1) mx
      | none => m.currentStacks + 1,
    remainingDuration :=
      match definition.duration with
      | some d => some d
      | none => m.remainingDuration }

/-- Mirror of `ModifierStack.addModifier`; an in-place `Map` update keeps the
entry position. -/
def ModifierStack.addModifier (s : ModifierStack) (definition : ModifierDefinition)
    (sourceType : ModifierSource) : ModifierStack :=
  match findModifier s definition.id with
  | some _ =>
      if definition.stackable then
        s.map (fun m =>
          if m.definition.id == definition.id then stackUpdate definition m else m)
      else s
  | none =>
      s ++ [{ definition := definition, sourceType := sourceType,
              currentStacks := 1, remainingDuration := definition.duration }]

/-- Mirror of `ModifierStack.getStackCount`. -/
def ModifierStack.getStackCount (s : ModifierStack) (modifierId : String) : ℚ :=
  match findModifier s modifierId with
  | some m => m.currentStacks
  | none => 0

/-- Mirror of `ModifierStack.getRemainingDuration`. -/
def ModifierStack.getRemainingDuration (s : ModifierStack) (modifierId : String) : Option ℚ :=
  match findModifier s modifierId with
  | some m => m.remainingDuration
  | none => none

/-- One effect of one active modifier accumulated into the
`flatBonuses` / `percentBonuses` records of `ModifierStack.applyToStats`
(`bonuses[stat] = (bonuses[stat] ?? 0) + value * stacks`). -/
def bonusStepEffect (stackCount : ℚ) (acc : StatBlock × StatBlock) (effect : ModifierEffect) :
    StatBlock × StatBlock :=
  match effect.valueType with
  | .flat =>
      (objSet acc.1 effect.stat
        ((objLookup acc.1 effect.stat).getD 0 + effect.value * stackCount),
       acc.2)
  | .percent =>
      (acc.1,
       objSet acc.2 effect.stat
        ((objLookup acc.2 effect.stat).getD 0 + effect.value * stackCount))

/-- All effects of one active modifier accumulated in order. -/
def bonusStepState (acc : StatBlock × StatBlock) (state : ActiveModifierState) :
    StatBlock × StatBlock :=
  state.definition.effects.foldl (bonusStepEffect state.currentStacks) acc

/-- The `flatBonuses` / `percentBonuses` records of
`ModifierStack.applyToStats`, built by iterating the active modifiers and
their effects in order. -/
def collectBonuses (s : ModifierStack) : StatBlock × StatBlock :=
  s.foldl bonusStepState ([], [])

/-- Mirror of `ModifierStack.applyToStats`: flat first, then percent, floored,
for every key of the base stat block (and no other key). -/
def ModifierStack.applyToStats (s : ModifierStack) (baseStats : StatBlock) : StatBlock :=
  let bonuses := collectBonuses s
  baseStats.map (fun p =>
    let base := p.2
    let flat := (objLookup bonuses.1 p.1).getD 0
    let percent := (objLookup bonuses.2 p.1).getD 0
    (p.1, ratFloor ((base + flat) * (1 + percent / 100))))

/-- Total flat contribution of a modifier list to one stat:
value × stack count summed over every flat effect touching the stat. -/
def flatSum (s : ModifierStack) (stat : String) : ℚ :=
  (s.map (fun state =>
    ((state.definition.effects.filter
        (fun e => e.valueType == ModifierValueType.flat && e.stat == stat)).map
      (fun e => e.value * state.currentStacks)).sum)).sum

/-- Total percent contribution of a modifier list to one stat. -/
def percentSum (s : ModifierStack) (stat : String) : ℚ :=
  (s.map (fun state =>
    ((state.definition.effects.filter
        (fun e => e.valueType == ModifierValueType.percent && e.stat == stat)).map
      (fun e => e.value * state.currentStacks)).sum)).sum

/-! ### Combatants (src/src/engine/combat/CombatState.ts Combatant) and skills/items
(src/unnamed/part_004 Skill, src/src/types/items.ts Item) -/

inductive SkillType where
  | physical
  | magic
  | healing
  | buff
  | debuff
  | defense
  | special
deriving DecidableEq

inductive TargetType where
  | self
  | single
  | all
  | allies
  | allAllies
deriving DecidableEq

structure SkillBuffEffect where
  stat : String
  type : Option ModifierValueType
  value : ℚ
  duration : ℚ
deriving DecidableEq

structure Skill where
  id : String
  name : String
  description : String
  type : SkillType
  mpCost : ℚ
  hpCost : Option ℚ
  power : Option ℚ
  target : Option TargetType
  value : Option ℚ
  buffEffect : Option SkillBuffEffect
  debuffEffect : Option SkillBuffEffect
deriving DecidableEq

inductive ItemEffectType where
  | healHp
  | healMp
  | revive
  | buff
  | damage
  | cure
  | none
deriving DecidableEq

structure Item where
  id : String
  name : String
  description : String
  effect : ItemEffectType
  value : ℚ
  target : Option TargetType
  buffStat : Option String
  buffValue : Option ℚ
  buffDuration : Option ℚ
deriving DecidableEq

structure Combatant where
  id : String
  name : String
  isPlayer : Bool
  baseStats : StatBlock
  currentStats : StatBlock
  currentHp : ℚ
  currentMp : ℚ
  maxHp : ℚ
  maxMp : ℚ
  skills : List String
  modifiers : ModifierStack
  isDefending : Bool
  isAlive : Bool
  level : ℚ
deriving DecidableEq

/-- JS truthiness of an optional number (`undefined` and `0` are falsy). -/
def jsTruthyOpt (o : Option ℚ) : Bool :=
  match o with
  | some v => v != 0
  | Option.none => false

/-! ### Randomness

Every `Math.random()` call draws the next value of an explicit stream; the
engine draws them in program order, so the stream index makes the draw order
part of the embedding.  Values are assumed to lie in `[0, 1)` exactly as JS
guarantees; theorems that depend on a draw state that assumption. -/

structure RandomSource where
  stream : Nat → ℚ
  idx : Nat

def RandomSource.next (r : RandomSource) : ℚ × RandomSource :=
  (r.stream r.idx, ⟨r.stream, r.idx + 1⟩)

/-- A concrete random stream for witnesses: value `vals[i % vals.length]`. -/
def cycleStream (vals : List ℚ) : RandomSource :=
  ⟨fun i => (vals.getD (i % vals.length) 0), 0⟩

/-! ### Damage calculator (src/unnamed/part_008 DamageCalculator) -/

structure DamageResult where
  damage : ℚ
  isCritical : Bool
  rawDamage : ℚ
  mitigatedBy : ℚ
deriving DecidableEq

/-- The three formula strings a `DamageCalculator` holds after its constructor
applied the per-field defaults (`game.stats?.combatFormulas` may be absent). -/
structure DamageFormulas where
  physicalDamage : String
  magicDamage : String
  criticalCheck : String
deriving DecidableEq

def DamageCalculator.mkFormulas (combatFormulas : Option CombatFormulas) : DamageFormulas :=
  { physicalDamage :=
      match combatFormulas with
      | some cf => cf.physicalDamage
      | Option.none =>
          "Attack * SkillPower / 100 * (100 / (100 + EnemyDef)) * (1 + Variance * 0.1)"
    magicDamage :=
      match combatFormulas with
      | some cf => cf.magicDamage
      | Option.none =>
          "MagicPower * SkillPower / 100 * (100 / (100 + EnemyRes)) * (1 + Variance * 0.1)"
    criticalCheck :=
      match combatFormulas with
      | some cf => cf.criticalCheck
      | Option.none => "CritRate" }

inductive DamageType where
  | physical
  | magic
deriving DecidableEq

/-- A `??` fallback chain over stat lookups. -/
def statChain (stats : StatBlock) : List String → ℚ → ℚ
  | [], deflt => deflt
  | k :: rest, deflt =>
      match objLookup stats k with
      | some v => v
      | Option.none => statChain stats rest deflt

/-- Mirror of `DamageContext` (all fields of the object literal built by
`DamageCalculator.buildContext`, in insertion order). -/
structure DamageContext where
  Attack : ℚ
  MagicPower : ℚ
  Strength : ℚ
  Intelligence : ℚ
  Dexterity : ℚ
  Luck : ℚ
  CritRate : ℚ
  CritDamage : ℚ
  Speed : ℚ
  Level : ℚ
  EnemyDef : ℚ
  EnemyRes : ℚ
  EnemyDefense : ℚ
  EnemyMagicResist : ℚ
  SkillPower : ℚ
  Variance : ℚ
  IsCritical : ℚ
  Random : ℚ
deriving DecidableEq

def DamageContext.toFormulaContext (c : DamageContext) : FormulaContext :=
  [("Attack", .num c.Attack), ("MagicPower", .num c.MagicPower),
   ("Strength", .num c.Strength), ("Intelligence", .num c.Intelligence),
   ("Dexterity", .num c.Dexterity), ("Luck", .num c.Luck),
   ("CritRate", .num c.CritRate), ("CritDamage", .num c.CritDamage),
   ("Speed", .num c.Speed), ("Level", .num c.Level),
   ("EnemyDef", .num c.EnemyDef), ("EnemyRes", .num c.EnemyRes),
   ("EnemyDefense", .num c.EnemyDefense), ("EnemyMagicResist", .num c.EnemyMagicResist),
   ("SkillPower", .num c.SkillPower), ("Variance", .num c.Variance),
   ("IsCritical", .num c.IsCritical), ("Random", .num c.Random)]

/-- Mirror of `DamageCalculator.buildContext` with its naming-convention
fallback chains. -/
def DamageCalculator.buildContext (attacker defender : Combatant)
    (skillPower variance randomValue : ℚ) : DamageContext :=
  let aStats := attacker.currentStats
  let dStats := defender.currentStats
  { Attack := statChain aStats ["Attack", "attack", "physAtk"] 10
    MagicPower := statChain aStats ["MagicPower", "magicPower", "magAtk"] 10
    Strength := statChain aStats ["Strength", "strength", "str"] 10
    Intelligence := statChain aStats ["Intelligence", "intelligence", "int"] 10
    Dexterity := statChain aStats ["Dexterity", "dexterity", "dex"] 10
    Luck := statChain aStats ["Luck", "luck", "lck"] 10
    CritRate := statChain aStats ["CritRate", "critRate"] 5
    CritDamage := statChain aStats ["CritDamage", "critDamage", "critDmg"] 150
    Speed := statChain aStats ["Speed", "speed"] 10
    Level := attacker.level
    EnemyDef := statChain dStats ["Defense", "defense", "physDef"] 10
    EnemyRes := statChain dStats ["MagicResist", "magicResist", "magDef"] 10
    EnemyDefense := statChain dStats ["Defense", "defense", "physDef"] 10
    EnemyMagicResist := statChain dStats ["MagicResist", "magicResist", "magDef"] 10
    SkillPower := skillPower
    Variance := variance
    IsCritical := 0
    Random := randomValue }

/-- Mirror of `DamageCalculator.checkCritical`: a formula error falls back to
`critRoll < (context.CritRate || 5)`. -/
def DamageCalculator.checkCritical (formulas : DamageFormulas) (context : DamageContext)
    (critRoll : ℚ) : Bool :=
  match computeCore formulas.criticalCheck context.toFormulaContext with
  | .ok critRate => decide (critRoll < critRate)
  | .error _ => decide (critRoll < (if context.CritRate = 0 then 5 else context.CritRate))

/-- Mirror of `DamageCalculator.calculate`.  The two `Math.random()` draws
(variance and crit roll) come from the random stream in program order; a
formula error falls back to the fixed simplified formula, and the final damage
is `Math.max(1, Math.floor(rawDamage))`. -/
def DamageCalculator.calculate (formulas : DamageFormulas) (attacker defender : Combatant)
    (damageType : DamageType) (skillPower : ℚ) (rng : RandomSource) :
    DamageResult × RandomSource :=
  let (r1, rng1) := rng.next
  let variance := r1 * 2 - 1
  let (r2, rng2) := rng1.next
  let critRoll := r2 * 100
  let context := DamageCalculator.buildContext attacker defender skillPower variance critRoll
  let isCritical := DamageCalculator.checkCritical formulas context critRoll
  let context := { context with IsCritical := if isCritical then 1 else 0 }
  let formula :=
    match damageType with
    | .physical => formulas.physicalDamage
    | .magic => formulas.magicDamage
  let rawDamage :=
    match computeCore formula context.toFormulaContext with
    | .ok v => v
    | .error _ =>
        match damageType with
        | .physical => context.Attack * (100 / (100 + context.EnemyDef)) * skillPower / 100
        | .magic => context.MagicPower * (100 / (100 + context.EnemyRes)) * skillPower / 100
  let rawDamage :=
    if isCritical then
      rawDamage * (((if context.CritDamage = (0 : ℚ) then (150 : ℚ) else context.CritDamage) : ℚ) / 100)
    else rawDamage
  let finalDamage := max 1 (ratFloor rawDamage)
  let baseAttack :=
    match damageType with
    | .physical => context.Attack
    | .magic => context.MagicPower
  let mitigatedBy := max 0 (ratFloor (baseAttack * skillPower / 100) - finalDamage)
  (⟨finalDamage, isCritical, ratFloor rawDamage, mitigatedBy⟩, rng2)

/-- Mirror of `DamageCalculator.calculateHealing`. -/
def DamageCalculator.calculateHealing (healer : Combatant) (basePower : ℚ)
    (rng : RandomSource) : ℚ × RandomSource :=
  let magAtk := statChain healer.currentStats
    ["MagicPower", "magicPower", "Intelligence", "intelligence"] 10
  let (r, rng1) := rng.next
  let variance := 9/10 + r * (2/10)
  (ratFloor ((basePower + magAtk * (1/2)) * variance), rng1)

/-! ### Action executor (src/src/engine/combat/ActionExecutor.ts)

The TS executor mutates the actor and the target `Combatant` objects in
place; the embedding passes them by value and returns the updated actor and
target list.  The embedding assumes the actor object is not itself an element
of the target list (self-targeting runs both updates through the same heap
object in JS); none of the verified claims involves a self-targeting skill. -/

inductive ActionEffectType where
  | damage
  | heal
  | healMp
  | buff
  | debuff
  | revive
deriving DecidableEq

structure ActionEffect where
  targetId : String
  type : ActionEffectType
  value : ℚ
  isCritical : Option Bool
  statAffected : Option String
deriving DecidableEq

structure ActionResult where
  success : Bool
  message : String
  effects : List ActionEffect
  killedTargets : List String
deriving DecidableEq

/-- Per-target loop of `ActionExecutor.executeAttackSkill`: skip dead targets,
halve the calculated damage (floored) when the target defends, clamp HP at 0,
record kills. -/
def executeAttackSkillGo (formulas : DamageFormulas) (actor : Combatant) (skill : Skill) :
    List Combatant → RandomSource →
    List ActionEffect × List String × List Combatant × RandomSource
  | [], rng => ([], [], [], rng)
  | target :: rest, rng =>
      if !target.isAlive then
        let (es, ks, rest1, rng1) := executeAttackSkillGo formulas actor skill rest rng
        (es, ks, target :: rest1, rng1)
      else
        let damageType := if skill.type = SkillType.magic then DamageType.magic
          else DamageType.physical
        let skillPower := skill.power.getD 100
        let (damageResult, rng1) :=
          DamageCalculator.calculate formulas actor target damageType skillPower rng
        let finalDamage :=
          if target.isDefending then ratFloor (damageResult.damage * (1/2))
          else damageResult.damage
        let newHp := max 0 (target.currentHp - finalDamage)
        let died := decide (newHp ≤ 0)
        let target1 := { target with
          currentHp := newHp,
          isAlive := if died then false else target.isAlive }
        let effect : ActionEffect :=
          ⟨target.id, .damage, finalDamage, some damageResult.isCritical, Option.none⟩
        let (es, ks, rest1, rng2) := executeAttackSkillGo formulas actor skill rest rng1
        (effect :: es, (if died then [target.id] else []) ++ ks, target1 :: rest1, rng2)

/-- Per-target loop of `ActionExecutor.executeHealingSkill`. -/
def executeHealingSkillGo (actor : Combatant) (basePower : ℚ) :
    List Combatant → RandomSource → List ActionEffect × List Combatant × RandomSource
  | [], rng => ([], [], rng)
  | target :: rest, rng =>
      if !target.isAlive then
        let (es, rest1, rng1) := executeHealingSkillGo actor basePower rest rng
        (es, target :: rest1, rng1)
      else
        let (healAmount, rng1) := DamageCalculator.calculateHealing actor basePower rng
        let newHp := min target.maxHp (target.currentHp + healAmount)
        let actualHeal := newHp - target.currentHp
        let target1 := { target with currentHp := newHp }
        let (es, rest1, rng2) := executeHealingSkillGo actor basePower rest rng1
        (⟨target.id, .heal, actualHeal, Option.none, Option.none⟩ :: es, target1 :: rest1, rng2)

/-- The modifier definition `executeBuffSkill` constructs from a skill. -/
def buffModifierOfSkill (skill : Skill) (eff : SkillBuffEffect) : ModifierDefinition :=
  { id := "buff_" ++ skill.id
    name := skill.name
    description := skill.description
    effects := [⟨eff.stat, eff.type.getD .flat, eff.value⟩]
    duration := some eff.duration
    stackable := false
    maxStacks := Option.none }

/-- Per-target loop of `ActionExecutor.executeBuffSkill`. -/
def executeBuffSkillGo (skill : Skill) (eff : SkillBuffEffect) :
    List Combatant → List ActionEffect × List Combatant
  | [] => ([], [])
  | target :: rest =>
      if !target.isAlive then
        let (es, rest1) := executeBuffSkillGo skill eff rest
        (es, target :: rest1)
      else
        let target1 := { target with
          modifiers := target.modifiers.addModifier (buffModifierOfSkill skill eff) .buff }
        let (es, rest1) := executeBuffSkillGo skill eff rest
        (⟨target.id, .buff, eff.value, Option.none, some eff.stat⟩ :: es, target1 :: rest1)

def executeBuffSkill (skill : Skill) (targets : List Combatant) :
    List ActionEffect × List Combatant :=
  match skill.buffEffect with
  | Option.none => ([], targets)
  | some eff => executeBuffSkillGo skill eff targets

/-- The modifier definition `executeDebuffSkill` constructs: the value is
forced negative. -/
def debuffModifierOfSkill (skill : Skill) (eff : SkillBuffEffect) : ModifierDefinition :=
  { id := "debuff_" ++ skill.id
    name := skill.name
    description := skill.description
    effects := [⟨eff.stat, eff.type.getD .flat, -(ratAbs eff.value)⟩]
    duration := some eff.duration
    stackable := false
    maxStacks := Option.none }

/-- Per-target loop of `ActionExecutor.executeDebuffSkill`. -/
def executeDebuffSkillGo (skill : Skill) (eff : SkillBuffEffect) :
    List Combatant → List ActionEffect × List Combatant
  | [] => ([], [])
  | target :: rest =>
      if !target.isAlive then
        let (es, rest1) := executeDebuffSkillGo skill eff rest
        (es, target :: rest1)
      else
        let target1 := { target with
          modifiers := target.modifiers.addModifier (debuffModifierOfSkill skill eff) .debuff }
        let (es, rest1) := executeDebuffSkillGo skill eff rest
        (⟨target.id, .debuff, eff.value, Option.none, some eff.stat⟩ :: es, target1 :: rest1)

def executeDebuffSkill (skill : Skill) (targets : List Combatant) :
    List ActionEffect × List Combatant :=
  match skill.debuffEffect with
  | Option.none => ([], targets)
  | some eff => executeDebuffSkillGo skill eff targets

/-- Mirror of `ActionExecutor.executeDefenseSkill`: sets `isDefending`, may add
a 1-turn buff to the actor, reports a buff effect on Defense. -/
def executeDefenseSkill (actor : Combatant) (skill : Skill) :
    List ActionEffect × Combatant :=
  let actor := { actor with isDefending := true }
  let actor :=
    match skill.buffEffect with
    | Option.none => actor
    | some eff =>
        { actor with
          modifiers := actor.modifiers.addModifier
            { id := "defense_" ++ skill.id
              name := skill.name
              description := skill.description
              effects := [⟨eff.stat, eff.type.getD .flat, eff.value⟩]
              duration := some 1
              stackable := false
              maxStacks := Option.none } .buff }
  ([⟨actor.id, .buff, skill.value.getD 50, Option.none, some "Defense"⟩], actor)

/-- The `switch (skill.type)` body of `ActionExecutor.executeSkill`, entered
after cost checks and deduction. -/
def executeSkillDispatch (formulas : DamageFormulas) (actor : Combatant) (skill : Skill)
    (targets : List Combatant) (rng : RandomSource) :
    ActionResult × Combatant × List Combatant × RandomSource :=
  let message := actor.name ++ " uses " ++ skill.name ++ "!"
  match skill.type with
  | .physical | .magic =>
      let (effects, killed, targets1, rng1) := executeAttackSkillGo formulas actor skill targets rng
      (⟨true, message, effects, killed⟩, actor, targets1, rng1)
  | .healing =>
      let (effects, targets1, rng1) := executeHealingSkillGo actor (skill.power.getD 50) targets rng
      (⟨true, message, effects, []⟩, actor, targets1, rng1)
  | .buff =>
      let (effects, targets1) := executeBuffSkill skill targets
      (⟨true, message, effects, []⟩, actor, targets1, rng)
  | .debuff =>
      let (effects, targets1) := executeDebuffSkill skill targets
      (⟨true, message, effects, []⟩, actor, targets1, rng)
  | .defense =>
      let (effects, actor1) := executeDefenseSkill actor skill
      (⟨true, message, effects, []⟩, actor1, targets, rng)
  | .special =>
      let (effects1, targets1) :=
        match skill.buffEffect with
        | some _ => executeBuffSkill skill targets
        | Option.none => ([], targets)
      let (effects2, targets2) :=
        match skill.debuffEffect with
        | some _ => executeDebuffSkill skill targets1
        | Option.none => ([], targets1)
      let (effects3, killed, targets3, rng1) :=
        match skill.power with
        | some p =>
            if p > 0 then executeAttackSkillGo formulas actor skill targets2 rng
            else ([], [], targets2, rng)
        | Option.none => ([], [], targets2, rng)
      (⟨true, message, effects1 ++ effects2 ++ effects3, killed⟩, actor, targets3, rng1)

/-- The cost-deduction lines of `ActionExecutor.executeSkill`
(`actor.currentMp -= skill.mpCost; if (skill.hpCost) actor.currentHp -= skill.hpCost`). -/
def costDeductedActor (actor : Combatant) (skill : Skill) : Combatant :=
  let actor := { actor with currentMp := actor.currentMp - skill.mpCost }
  if jsTruthyOpt skill.hpCost then
    { actor with currentHp := actor.currentHp - skill.hpCost.getD 0 }
  else actor

/-- Mirror of `ActionExecutor.executeSkill`: MP precondition, HP-cost
precondition (JS-truthy `skill.hpCost`), cost deduction, then type dispatch.
The failure messages in the source interpolate the numeric costs; the
embedding keeps a fixed prefix of that text. -/
def ActionExecutor.executeSkill (formulas : DamageFormulas) (actor : Combatant) (skill : Skill)
    (targets : List Combatant) (rng : RandomSource) :
    ActionResult × Combatant × List Combatant × RandomSource :=
  if skill.mpCost > actor.currentMp then
    (⟨false, "Not enough MP!", [], []⟩, actor, targets, rng)
  else if jsTruthyOpt skill.hpCost && decide (skill.hpCost.getD 0 ≥ actor.currentHp) then
    (⟨false, "Not enough HP!", [], []⟩, actor, targets, rng)
  else
    executeSkillDispatch formulas (costDeductedActor actor skill) skill targets rng

/-- Per-target loop of the `healHp` case of `ActionExecutor.executeItem`. -/
def executeItemHealHpGo (item : Item) :
    List Combatant → List ActionEffect × List Combatant
  | [] => ([], [])
  | target :: rest =>
      if !target.isAlive then
        let (es, rest1) := executeItemHealHpGo item rest
        (es, target :: rest1)
      else
        let newHp := min target.maxHp (target.currentHp + item.value)
        let actualHeal := newHp - target.currentHp
        let target1 := { target with currentHp := newHp }
        let (es, rest1) := executeItemHealHpGo item rest
        (⟨target.id, .heal, actualHeal, Option.none, Option.none⟩ :: es, target1 :: rest1)

/-- Per-target loop of the `healMp` case. -/
def executeItemHealMpGo (item : Item) :
    List Combatant → List ActionEffect × List Combatant
  | [] => ([], [])
  | target :: rest =>
      if !target.isAlive then
        let (es, rest1) := executeItemHealMpGo item rest
        (es, target :: rest1)
      else
        let newMp := min target.maxMp (target.currentMp + item.value)
        let actualRestore := newMp - target.currentMp
        let target1 := { target with currentMp := newMp }
        let (es, rest1) := executeItemHealMpGo item rest
        (⟨target.id, .healMp, actualRestore, Option.none, some "MP"⟩ :: es, target1 :: rest1)

/-- Per-target loop of the `revive` case: only already-dead targets are
affected, revived at `floor(maxHp * value / 100)`. -/
def executeItemReviveGo (item : Item) :
    List Combatant → List ActionEffect × List Combatant
  | [] => ([], [])
  | target :: rest =>
      if target.isAlive then
        let (es, rest1) := executeItemReviveGo item rest
        (es, target :: rest1)
      else
        let newHp := ratFloor (target.maxHp * (item.value / 100))
        let target1 := { target with isAlive := true, currentHp := newHp }
        let (es, rest1) := executeItemReviveGo item rest
        (⟨target.id, .revive, newHp, Option.none, Option.none⟩ :: es, target1 :: rest1)

/-- The modifier definition the `buff` item case constructs. -/
def buffModifierOfItem (item : Item) (buffStat : String) (buffValue : ℚ) : ModifierDefinition :=
  { id := "item_" ++ item.id
    name := item.name
    description := item.description
    effects := [⟨buffStat, .flat, buffValue⟩]
    duration := some (item.buffDuration.getD 3)
    stackable := false
    maxStacks := Option.none }

/-- Per-target loop of the `buff` case (entered only when `item.buffStat` and
`item.buffValue` are JS-truthy). -/
def executeItemBuffGo (item : Item) (buffStat : String) (buffValue : ℚ) :
    List Combatant → List ActionEffect × List Combatant
  | [] => ([], [])
  | target :: rest =>
      if !target.isAlive then
        let (es, rest1) := executeItemBuffGo item buffStat buffValue rest
        (es, target :: rest1)
      else
        let target1 := { target with
          modifiers := target.modifiers.addModifier (buffModifierOfItem item buffStat buffValue) .item }
        let (es, rest1) := executeItemBuffGo item buffStat buffValue rest
        (⟨target.id, .buff, buffValue, Option.none, some buffStat⟩ :: es, target1 :: rest1)

/-- Per-target loop of the `damage` case. -/
def executeItemDamageGo (item : Item) :
    List Combatant → List ActionEffect × List String × List Combatant
  | [] => ([], [], [])
  | target :: rest =>
      if !target.isAlive then
        let (es, ks, rest1) := executeItemDamageGo item rest
        (es, ks, target :: rest1)
      else
        let newHp := max 0 (target.currentHp - item.value)
        let died := decide (newHp ≤ 0)
        let target1 := { target with
          currentHp := newHp,
          isAlive := if died then false else target.isAlive }
        let (es, ks, rest1) := executeItemDamageGo item rest
        (⟨target.id, .damage, item.value, Option.none, Option.none⟩ :: es,
         (if died then [target.id] else []) ++ ks, target1 :: rest1)

/-- JS `Map` iteration with deletion of matching keys:
`ModifierStack.clearBySource`. -/
def ModifierStack.clearBySource (s : ModifierStack) (sourceType : ModifierSource) :
    ModifierStack :=
  s.filter (fun m => m.sourceType != sourceType)

/-- Per-target loop of the `cure` case: strips all debuff-sourced modifiers. -/
def executeItemCureGo :
    List Combatant → List ActionEffect × List Combatant
  | [] => ([], [])
  | target :: rest =>
      if !target.isAlive then
        let (es, rest1) := executeItemCureGo rest
        (es, target :: rest1)
      else
        let target1 := { target with modifiers := target.modifiers.clearBySource .debuff }
        let (es, rest1) := executeItemCureGo rest
        (⟨target.id, .buff, 0, Option.none, some "status"⟩ :: es, target1 :: rest1)

/-- JS truthiness of an optional string (`undefined` and the empty string are
falsy). -/
def jsTruthyOptStr (o : Option String) : Bool :=
  match o with
  | some s => s != ""
  | Option.none => false

/-- Mirror of `ActionExecutor.executeItem`: every branch, including the `none`
effect and an empty target list, ends in `success: true`. -/
def ActionExecutor.executeItem (actor : Combatant) (item : Item)
    (targets : List Combatant) :
    ActionResult × List Combatant :=
  let message := actor.name ++ " uses " ++ item.name ++ "!"
  match item.effect with
  | .healHp =>
      let (effects, targets1) := executeItemHealHpGo item targets
      (⟨true, message, effects, []⟩, targets1)
  | .healMp =>
      let (effects, targets1) := executeItemHealMpGo item targets
      (⟨true, message, effects, []⟩, targets1)
  | .revive =>
      let (effects, targets1) := executeItemReviveGo item targets
      (⟨true, message, effects, []⟩, targets1)
  | .buff =>
      match item.buffStat, item.buffValue with
      | some bs, some bv =>
          if jsTruthyOptStr item.buffStat && jsTruthyOpt item.buffValue then
            let (effects, targets1) := executeItemBuffGo item bs bv targets
            (⟨true, message, effects, []⟩, targets1)
          else (⟨true, message, [], []⟩, targets)
      | _, _ => (⟨true, message, [], []⟩, targets)
  | .damage =>
      let (effects, killed, targets1) := executeItemDamageGo item targets
      (⟨true, message, effects, killed⟩, targets1)
  | .cure =>
      let (effects, targets1) := executeItemCureGo targets
      (⟨true, message, effects, []⟩, targets1)
  | .none => (⟨true, message, [], []⟩, targets)

/-! ### Combat state machine data (src/src/engine/combat/CombatState.ts) -/

inductive CombatPhase where
  | start
  | turn_start
  | action_select
  | target_select
  | action_execute
  | turn_end
  | victory
  | defeat
  | fled
  | dialog
deriving DecidableEq

inductive CombatActionType where
  | skill
  | item
  | defend
  | flee
deriving DecidableEq

structure CombatAction where
  type : CombatActionType
  actorId : String
  skillId : Option String
  itemId : Option String
  targetIds : Option (List String)
deriving DecidableEq

structure TurnQueueEntry where
  combatantId : String
  initiative : ℚ
deriving DecidableEq

structure DialogEntry where
  speaker : String
  text : String
deriving DecidableEq

/-- Value-level view of a `CombatSnapshot` (the turn counters are Nat-valued
counters in every reachable state). -/
structure CombatSnapshot where
  phase : CombatPhase
  turnNumber : Nat
  currentTurnIndex : Nat
  turnQueue : List TurnQueueEntry
  combatants : List (String × Combatant)
  pendingAction : Option CombatAction
  battleLog : List String
  dialogQueue : List DialogEntry
  currentDialog : Option DialogEntry
deriving DecidableEq

/-! ### Enemy AI (src/unnamed/part_009 EnemyAI) -/

inductive AIBehavior where
  | aggressive
  | defensive
  | balanced
  | random
  | scripted
deriving DecidableEq

inductive TargetPref where
  | weakest
  | strongest
  | random
deriving DecidableEq

structure EnemyAIConfig where
  behavior : AIBehavior
  healThreshold : Option ℚ
  defendThreshold : Option ℚ
  preferTargets : Option TargetPref
  skillPriority : Option (List String)
deriving DecidableEq

/-- `⟨ ...DEFAULT_AI_CONFIG, ...aiConfig ⟩` merged configuration. -/
structure MergedAIConfig where
  behavior : AIBehavior
  healThreshold : ℚ
  defendThreshold : ℚ
  preferTargets : TargetPref
  skillPriority : List String
deriving DecidableEq

def mergeAIConfig (aiConfig : Option EnemyAIConfig) : MergedAIConfig :=
  match aiConfig with
  | Option.none =>
      { behavior := .balanced, healThreshold := 30, defendThreshold := 20,
        preferTargets := .random, skillPriority := [] }
  | some c =>
      { behavior := c.behavior
        healThreshold := c.healThreshold.getD 30
        defendThreshold := c.defendThreshold.getD 20
        preferTargets := c.preferTargets.getD .random
        skillPriority := c.skillPriority.getD [] }

/-- The slice of the game definition the AI and executors look at. -/
structure GameDefinition where
  skills : Option (List Skill)
  items : Option (List Item)
deriving DecidableEq

/-- Mirror of `EnemyAI.getAvailableSkills`: ids resolved against
`game.skills?.find`, unresolved ids dropped. -/
def getAvailableSkills (game : GameDefinition) (enemy : Combatant) : List Skill :=
  enemy.skills.filterMap (fun id => (game.skills.getD []).find? (fun s => s.id == id))

/-- Stable insertion of `x` after every element `y` with `le y x`; folding it
over a list is a stable sort, which is what the JS runtime guarantees for
`Array.prototype.sort` with a numeric comparator. -/
def insertStable (le : Skill → Skill → Bool) (x : Skill) : List Skill → List Skill
  | [] => [x]
  | y :: ys => if le y x then y :: insertStable le x ys else x :: y :: ys

def stableSortSkills (le : Skill → Skill → Bool) (l : List Skill) : List Skill :=
  l.foldl (fun acc x => insertStable le x acc) []

/-- Mirror of `EnemyAI.selectTarget`; throws on an empty target list. -/
def selectTarget (targets : List Combatant) (preference : TargetPref)
    (rng : RandomSource) : Except String Combatant × RandomSource :=
  match targets with
  | [] => (.error "No valid targets", rng)
  | t0 :: rest =>
      match preference with
      | .weakest =>
          (.ok (rest.foldl (fun weakest current =>
            if current.currentHp < weakest.currentHp then current else weakest) t0), rng)
      | .strongest =>
          (.ok (rest.foldl (fun strongest current =>
            if current.currentHp > strongest.currentHp then current else strongest) t0), rng)
      | .random =>
          let (r, rng1) := rng.next
          let idx := (⌊r * ((t0 :: rest).length : ℚ)⌋).toNat
          (.ok ((t0 :: rest).getD idx t0), rng1)

/-- Mirror of `EnemyAI.getTargetIds`. -/
def getTargetIds (skill : Skill) (primaryTarget : Combatant)
    (allTargets : List Combatant) : List String :=
  if skill.type = SkillType.healing || skill.type = SkillType.buff ||
      skill.target = some TargetType.self then
    [primaryTarget.id]
  else if skill.target = some TargetType.all then
    allTargets.map (fun t => t.id)
  else
    [primaryTarget.id]

def defendActionFor (enemy : Combatant) : CombatAction :=
  ⟨.defend, enemy.id, Option.none, Option.none, Option.none⟩

/-- Mirror of `EnemyAI.basicAttack`. -/
def basicAttack (enemy : Combatant) (targets : List Combatant) (preference : TargetPref)
    (rng : RandomSource) : Except String CombatAction × RandomSource :=
  match selectTarget targets preference rng with
  | (.error e, rng1) => (.error e, rng1)
  | (.ok target, rng1) =>
      (.ok ⟨.skill, enemy.id, some "basic_attack", Option.none, some [target.id]⟩, rng1)

/-- Mirror of `EnemyAI.aggressiveBehavior`. -/
def aggressiveBehavior (enemy : Combatant) (skills : List Skill)
    (targets : List Combatant) (config : MergedAIConfig)
    (rng : RandomSource) : Except String CombatAction × RandomSource :=
  let attackSkills := skills.filter (fun s =>
    s.type = SkillType.physical || s.type = SkillType.magic)
  match attackSkills with
  | [] => (.ok (defendActionFor enemy), rng)
  | _ :: _ =>
      let sorted := stableSortSkills
        (fun a b => decide (b.power.getD 0 ≤ a.power.getD 0)) attackSkills
      match sorted.find? (fun s => decide (s.mpCost ≤ enemy.currentMp)) with
      | Option.none => basicAttack enemy targets .weakest rng
      | some skill =>
          let pref := if config.preferTargets = TargetPref.random then TargetPref.weakest
            else config.preferTargets
          match selectTarget targets pref rng with
          | (.error e, rng1) => (.error e, rng1)
          | (.ok target, rng1) =>
              (.ok ⟨.skill, enemy.id, some skill.id, Option.none,
                some (getTargetIds skill target targets)⟩, rng1)

/-- Mirror of `EnemyAI.defensiveBehavior`. -/
def defensiveBehavior (enemy : Combatant) (skills : List Skill)
    (targets : List Combatant) (config : MergedAIConfig)
    (rng : RandomSource) : Except String CombatAction × RandomSource :=
  let hpPercent := (enemy.currentHp / enemy.maxHp) * 100
  let healChoice :=
    if hpPercent ≤ config.healThreshold then
      skills.find? (fun s =>
        s.type = SkillType.healing && decide (s.mpCost ≤ enemy.currentMp))
    else Option.none
  match healChoice with
  | some healSkill =>
      (.ok ⟨.skill, enemy.id, some healSkill.id, Option.none, some [enemy.id]⟩, rng)
  | Option.none =>
      if hpPercent ≤ config.defendThreshold then
        (.ok (defendActionFor enemy), rng)
      else
        let attackSkills := stableSortSkills
          (fun a b => decide (a.power.getD 0 ≤ b.power.getD 0))
          (skills.filter (fun s =>
            (s.type = SkillType.physical || s.type = SkillType.magic) &&
            decide (s.mpCost ≤ enemy.currentMp)))
        match attackSkills with
        | [] => (.ok (defendActionFor enemy), rng)
        | first :: _ =>
            match selectTarget targets config.preferTargets rng with
            | (.error e, rng1) => (.error e, rng1)
            | (.ok target, rng1) =>
                (.ok ⟨.skill, enemy.id, some first.id, Option.none,
                  some (getTargetIds first target targets)⟩, rng1)

/-- Mirror of `EnemyAI.balancedBehavior`.  JS `&&` short-circuits, so the
buff/debuff chance rolls are drawn only when the corresponding skill exists. -/
def balancedBehavior (enemy : Combatant) (skills : List Skill)
    (targets : List Combatant) (config : MergedAIConfig)
    (rng : RandomSource) : Except String CombatAction × RandomSource :=
  let hpPercent := (enemy.currentHp / enemy.maxHp) * 100
  let healChoice :=
    if hpPercent ≤ config.healThreshold then
      skills.find? (fun s =>
        s.type = SkillType.healing && decide (s.mpCost ≤ enemy.currentMp))
    else Option.none
  match healChoice with
  | some healSkill =>
      (.ok ⟨.skill, enemy.id, some healSkill.id, Option.none, some [enemy.id]⟩, rng)
  | Option.none =>
      let buffSkill := skills.find? (fun s =>
        s.type = SkillType.buff && decide (s.mpCost ≤ enemy.currentMp))
      let (buffRoll, rng) :=
        match buffSkill with
        | some _ => rng.next
        | Option.none => ((1 : ℚ), rng)
      match buffSkill, decide (buffRoll < 3/10) with
      | some skill, true =>
          (.ok ⟨.skill, enemy.id, some skill.id, Option.none, some [enemy.id]⟩, rng)
      | _, _ =>
          let debuffSkill := skills.find? (fun s =>
            s.type = SkillType.debuff && decide (s.mpCost ≤ enemy.currentMp))
          let (debuffRoll, rng) :=
            match debuffSkill with
            | some _ => rng.next
            | Option.none => ((1 : ℚ), rng)
          match debuffSkill, decide (debuffRoll < 2/10) with
          | some skill, true =>
              (match selectTarget targets .strongest rng with
               | (.error e, rng1) => (.error e, rng1)
               | (.ok target, rng1) =>
                   (.ok ⟨.skill, enemy.id, some skill.id, Option.none, some [target.id]⟩, rng1))
          | _, _ =>
              let attackSkills := skills.filter (fun s =>
                (s.type = SkillType.physical || s.type = SkillType.magic) &&
                decide (s.mpCost ≤ enemy.currentMp))
              match attackSkills with
              | [] => (.ok (defendActionFor enemy), rng)
              | first :: _ =>
                  let (r, rng1) := rng.next
                  let skill := attackSkills.getD (⌊r * (attackSkills.length : ℚ)⌋).toNat first
                  match selectTarget targets config.preferTargets rng1 with
                  | (.error e, rng2) => (.error e, rng2)
                  | (.ok target, rng2) =>
                      (.ok ⟨.skill, enemy.id, some skill.id, Option.none,
                        some (getTargetIds skill target targets)⟩, rng2)

/-- Mirror of `EnemyAI.randomBehavior`. -/
def randomBehavior (enemy : Combatant) (skills : List Skill)
    (targets : List Combatant) (rng : RandomSource) :
    Except String CombatAction × RandomSource :=
  let affordableSkills := skills.filter (fun s => decide (s.mpCost ≤ enemy.currentMp))
  match affordableSkills with
  | [] => (.ok (defendActionFor enemy), rng)
  | first :: _ =>
      let (r, rng1) := rng.next
      let skill := affordableSkills.getD (⌊r * (affordableSkills.length : ℚ)⌋).toNat first
      match selectTarget targets .random rng1 with
      | (.error e, rng2) => (.error e, rng2)
      | (.ok target, rng2) =>
          (.ok ⟨.skill, enemy.id, some skill.id, Option.none,
            some (getTargetIds skill target targets)⟩, rng2)

/-- Mirror of `EnemyAI.scriptedBehavior`. -/
def scriptedBehavior (enemy : Combatant) (skills : List Skill)
    (targets : List Combatant) (snapshot : CombatSnapshot) (config : MergedAIConfig)
    (rng : RandomSource) : Except String CombatAction × RandomSource :=
  let priorityChoice : Option Skill :=
    match config.skillPriority with
    | [] => Option.none
    | _ :: _ =>
        let turnIndex := snapshot.turnNumber % config.skillPriority.length
        let prioritySkillId := config.skillPriority.getD turnIndex ""
        skills.find? (fun s =>
          s.id == prioritySkillId && decide (s.mpCost ≤ enemy.currentMp))
  match priorityChoice with
  | some prioritySkill =>
      (match selectTarget targets config.preferTargets rng with
       | (.error e, rng1) => (.error e, rng1)
       | (.ok target, rng1) =>
           (.ok ⟨.skill, enemy.id, some prioritySkill.id, Option.none,
             some (getTargetIds prioritySkill target targets)⟩, rng1))
  | Option.none =>
      let buffChoice : Option Skill :=
        if snapshot.turnNumber % 3 = 0 then
          skills.find? (fun s =>
            s.type = SkillType.buff && decide (s.mpCost ≤ enemy.currentMp))
        else Option.none
      match buffChoice with
      | some buffSkill =>
          (.ok ⟨.skill, enemy.id, some buffSkill.id, Option.none, some [enemy.id]⟩, rng)
      | Option.none => balancedBehavior enemy skills targets config rng

/-- Mirror of `EnemyAI.selectAction`: merge the config over defaults, filter
living players from the snapshot, defend when no player target, else dispatch
on the behavior pattern. -/
def EnemyAI.selectAction (game : GameDefinition) (enemy : Combatant)
    (snapshot : CombatSnapshot) (aiConfig : Option EnemyAIConfig)
    (rng : RandomSource) : Except String CombatAction × RandomSource :=
  let config := mergeAIConfig aiConfig
  let players := (snapshot.combatants.map (fun p => p.2)).filter
    (fun c => c.isPlayer && c.isAlive)
  match players with
  | [] => (.ok (defendActionFor enemy), rng)
  | _ :: _ =>
      let skills := getAvailableSkills game enemy
      match config.behavior with
      | .aggressive => aggressiveBehavior enemy skills players config rng
      | .defensive => defensiveBehavior enemy skills players config rng
      | .balanced => balancedBehavior enemy skills players config rng
      | .random => randomBehavior enemy skills players rng
      | .scripted => scriptedBehavior enemy skills players snapshot config rng

/-! ### Reference-level model of `CombatStateMachine.getSnapshot`
(src/src/engine/combat/CombatState.ts and src/unnamed/part_008)

In JS the engine's `Map<string, Combatant>` stores references to mutable
`Combatant` objects.  `getSnapshot` builds the snapshot with
`new Map(this.combatants)`, which copies the (key, reference) entries but
shares the referenced `Combatant` objects with the engine.  To state this,
combatant references are explicit: a `Ref` indexes a heap of `Combatant`
records.  The spread-copied arrays (`turnQueue`, `battleLog`, `dialogQueue`)
are kept at value level: their elements are likewise shared objects in JS,
but the combatants map alone already decides the snapshot claim. -/

abbrev Ref := Nat

structure CombatHeap where
  cells : List Combatant
deriving DecidableEq

def CombatHeap.read (h : CombatHeap) (r : Ref) : Option Combatant :=
  h.cells.get? r

def CombatHeap.write (h : CombatHeap) (r : Ref) (c : Combatant) : CombatHeap :=
  ⟨h.cells.set r c⟩

/-- The private fields of a `CombatStateMachine`, with the combatants map
holding references. -/
structure EngineStateRefs where
  phase : CombatPhase
  turnNumber : Nat
  currentTurnIndex : Nat
  turnQueue : List TurnQueueEntry
  combatants : List (String × Ref)
  pendingAction : Option CombatAction
  battleLog : List String
  dialogQueue : List DialogEntry
deriving DecidableEq

/-- A returned `CombatSnapshot`, at reference level for its combatants map. -/
structure CombatSnapshotRefs where
  phase : CombatPhase
  turnNumber : Nat
  currentTurnIndex : Nat
  turnQueue : List TurnQueueEntry
  combatants : List (String × Ref)
  pendingAction : Option CombatAction
  battleLog : List String
  dialogQueue : List DialogEntry
  currentDialog : Option DialogEntry
deriving DecidableEq

/-- Mirror of `getSnapshot`: fresh array copies (`[...]`), a fresh `Map` over
the same combatant references (`new Map(this.combatants)`), a shallow copy of
the pending action, and `dialogQueue[0] ?? null` as the current dialog. -/
def CombatStateMachine.getSnapshot (e : EngineStateRefs) : CombatSnapshotRefs :=
  { phase := e.phase
    turnNumber := e.turnNumber
    currentTurnIndex := e.currentTurnIndex
    turnQueue := e.turnQueue
    combatants := e.combatants
    pendingAction := e.pendingAction
    battleLog := e.battleLog
    dialogQueue := e.dialogQueue
    currentDialog := e.dialogQueue.head? }

/-- What an observer holding a snapshot sees in its combatants map once the
heap is dereferenced. -/
def snapshotCombatants (s : CombatSnapshotRefs) (h : CombatHeap) :
    List (String × Option Combatant) :=
  s.combatants.map (fun p => (p.1, h.read p.2))

/-- A small concrete player combatant for concrete runs. -/
def heroCombatant : Combatant :=
  { id := "hero", name := "Hero", isPlayer := true
    baseStats := [("Strength", 10)]
    currentStats := [("Attack", 12), ("Speed", 10)]
    currentHp := 100, currentMp := 50, maxHp := 100, maxMp := 50
    skills := [], modifiers := [], isDefending := false, isAlive := true, level := 1 }

/-- Engine state reached right after initializing a battle with the hero
alone and starting their turn. -/
def engineStateDemo : EngineStateRefs :=
  { phase := .action_select, turnNumber := 1, currentTurnIndex := 0
    turnQueue := [⟨"hero", 15⟩]
    combatants := [("hero", 0)]
    pendingAction := Option.none
    battleLog := ["Battle Start!"]
    dialogQueue := [] }

def heapDemo : CombatHeap := ⟨[heroCombatant]⟩

/-- The reference an observer reads out of the snapshot's combatants map. -/
def snapshotHeroRef : Ref :=
  (((CombatStateMachine.getSnapshot engineStateDemo).combatants.lookup "hero").getD 999)

/-- The heap after the observer mutates the Combatant it obtained from the
snapshot (`snapshot.combatants.get("hero").currentHp = 0`). -/
def heapDemoMutated : CombatHeap :=
  heapDemo.write snapshotHeroRef { heroCombatant with currentHp := 0 }

/-! ### Spec-side reading of the StatEngine construction-time validation
(claim about src/src/engine/stats/StatEngine.ts validateConfig), for the
iff comparison with the source embedding `validateConfig`. -/

/-- Variables the spec allows a derived-stat formula at declaration index `i`
to reference: primary stat ids, `Level`, and earlier-declared derived ids. -/
def derivedAllowedVars (config : StatEngineConfig) (i : Nat) : List String :=
  "Level" :: config.primaryStats.map (fun s => s.id) ++
    (config.derivedStats.take i).map (fun s => s.id)

/-- Variables the spec allows a combat formula to reference. -/
def combatAllowedVars (config : StatEngineConfig) : List String :=
  config.primaryStats.map (fun s => s.id) ++ config.derivedStats.map (fun s => s.id) ++
    specialVars

/-- The four combat formulas of a config. -/
def combatFormulaList (config : StatEngineConfig) : List String :=
  [config.combatFormulas.physicalDamage, config.combatFormulas.magicDamage,
   config.combatFormulas.criticalCheck, config.combatFormulas.turnOrder]

/-- The spec's description of when constructing a `StatEngine` throws: some
derived-stat or combat formula fails to parse, or a derived-stat formula
references a variable that is not a primary stat id, `Level`, or an
earlier-declared derived stat id, or a combat formula references a variable
outside the primary/derived ids and the special tokens. -/
def specStatEngineConstructorThrows (config : StatEngineConfig) : Prop :=
  (∃ d ∈ config.derivedStats, (validateCore d.formula).1 = false) ∨
  (∃ f ∈ combatFormulaList config, (validateCore f).1 = false) ∨
  (∃ i, ∃ h : i < config.derivedStats.length, ∃ vars v,
    getVariablesCore (config.derivedStats.get ⟨i, h⟩).formula = .ok vars ∧
    v ∈ vars ∧ v ∉ derivedAllowedVars config i) ∨
  (∃ f ∈ combatFormulaList config, ∃ vars v,
    getVariablesCore f = .ok vars ∧ v ∈ vars ∧ v ∉ combatAllowedVars config)

/-! ### Concrete inputs used by witnesses and counterexamples -/

/-- A fresh, empty modifier stack. -/
def emptyModifierStack : ModifierStack := []

/-- A concrete enemy combatant. -/
def goblinCombatant : Combatant :=
  { id := "goblin", name := "Goblin", isPlayer := false
    baseStats := [("Strength", 6)]
    currentStats := [("Defense", 10)]
    currentHp := 40, currentMp := 10, maxHp := 40, maxMp := 10
    skills := [], modifiers := [], isDefending := false, isAlive := true, level := 1 }

/-- Damage formulas of a game that declares no combat formulas (the
constructor defaults). -/
def damageFormulasDefault : DamageFormulas := DamageCalculator.mkFormulas Option.none

/-- Random stream: variance roll 1/2 (variance 0), then crit roll 0. -/
def rngVarianceMid : RandomSource := cycleStream [1/2, 0]

/-- An attacker whose Attack stat is 1 and who can never crit. -/
def attackerWeak : Combatant :=
  { heroCombatant with currentStats := [("Attack", 1), ("CritRate", 0)] }

/-- A defending target with Defense 10. -/
def defenderGuarding : Combatant := { goblinCombatant with isDefending := true }

/-- A plain physical skill with no costs. -/
def basicSlash : Skill :=
  { id := "slash", name := "Slash", description := "A basic slash"
    type := .physical, mpCost := 0, hpCost := Option.none, power := Option.none
    target := some .single, value := Option.none
    buffEffect := Option.none, debuffEffect := Option.none }

/-- A physical skill whose declared HP cost is 0 (JS-falsy). -/
def skillZeroHpCost : Skill :=
  { id := "lastStand", name := "Last Stand", description := "Free desperation move"
    type := .physical, mpCost := 0, hpCost := some 0, power := some 100
    target := some .single, value := Option.none
    buffEffect := Option.none, debuffEffect := Option.none }

/-- An actor at exactly 0 HP and 0 MP. -/
def actorAtZeroHp : Combatant :=
  { heroCombatant with currentHp := 0, currentMp := 0 }

/-- A skill the zero-MP actor cannot afford. -/
def fireballSkill : Skill :=
  { id := "fireball", name := "Fireball", description := "A ball of fire"
    type := .magic, mpCost := 5, hpCost := Option.none, power := some 120
    target := some .single, value := Option.none
    buffEffect := Option.none, debuffEffect := Option.none }

/-- A stackable modifier capped at 3 stacks. -/
def rageStackDef : ModifierDefinition :=
  { id := "rage", name := "Rage", description := "Stacking fury"
    effects := [⟨"Attack", .flat, 5⟩]
    duration := some 3, stackable := true, maxStacks := some 3 }

/-- A non-stackable timed modifier. -/
def ironSkinDef : ModifierDefinition :=
  { id := "ironskin", name := "Iron Skin", description := "Hardened skin"
    effects := [⟨"Defense", .flat, 10⟩]
    duration := some 2, stackable := false, maxStacks := Option.none }

/-- A percent modifier for the applyToStats witness. -/
def blessingDef : ModifierDefinition :=
  { id := "blessing", name := "Blessing", description := "Holy blessing"
    effects := [⟨"Attack", .percent, 50⟩]
    duration := Option.none, stackable := false, maxStacks := Option.none }

def demoModStack : ModifierStack :=
  [⟨rageStackDef, .buff, 2, some 3⟩, ⟨blessingDef, .buff, 1, Option.none⟩]

def demoModStackPerm : ModifierStack :=
  [⟨blessingDef, .buff, 1, Option.none⟩, ⟨rageStackDef, .buff, 2, some 3⟩]

def demoBaseStats : StatBlock := [("Attack", 10), ("Speed", 7)]

/-- A snapshot whose only player is dead (the enemy AI must defend). -/
def snapshotNoLivingPlayer : CombatSnapshot :=
  { phase := .turn_start, turnNumber := 2, currentTurnIndex := 0
    turnQueue := [⟨"goblin", 12⟩]
    combatants :=
      [("hero", { heroCombatant with isAlive := false, currentHp := 0 }),
       ("goblin", goblinCombatant)]
    pendingAction := Option.none
    battleLog := []
    dialogQueue := []
    currentDialog := Option.none }

/-- An empty game definition (no declared skills or items). -/
def emptyGame : GameDefinition := ⟨Option.none, Option.none⟩

/-- A healing potion item. -/
def potionItem : Item :=
  { id := "potion", name := "Potion", description := "Restores HP"
    effect := .healHp, value := 30, target := some .single
    buffStat := Option.none, buffValue := Option.none, buffDuration := Option.none }

/-- Claim C10: `ActionExecutor.executeItem` returns `success: true` for every
item and every target list — empty lists, all-dead targets for non-revive
effects, all-alive targets for revive, and items with effect `none` included;
item use never reports failure. -/
theorem executeItem_always_success (actor : Combatant) (item : Item)
    (targets : List Combatant) :
    (ActionExecutor.executeItem actor item targets).1.success = true := by
  unfold ActionExecutor.executeItem
  cases item.effect <;> simp
  case buff =>
    cases item.buffStat <;> cases item.buffValue <;> simp <;> split <;> simp

/-- Claim C8: for every enemy, snapshot, AI configuration and random stream,
if the snapshot contains no living player combatant, `EnemyAI.selectAction`
returns a defend action for that enemy, regardless of the configured
behavior pattern. -/
theorem selectAction_defends_without_players (game : GameDefinition) (enemy : Combatant)
    (snapshot : CombatSnapshot) (aiConfig : Option EnemyAIConfig) (rng : RandomSource)
    (h : (snapshot.combatants.map (fun p => p.2)).filter
      (fun c => c.isPlayer && c.isAlive) = []) :
    EnemyAI.selectAction game enemy snapshot aiConfig rng =
      (.ok (defendActionFor enemy), rng) := by
  unfold EnemyAI.selectAction
  simp [h]

theorem selectAction_defends_witness :
    EnemyAI.selectAction emptyGame goblinCombatant snapshotNoLivingPlayer Option.none
      (cycleStream [1/2]) = (.ok (defendActionFor goblinCombatant), cycleStream [1/2]) :=
  selectAction_defends_without_players emptyGame goblinCombatant snapshotNoLivingPlayer
    Option.none (cycleStream [1/2]) (by decide)

/-- Claim C1 (code bug): the combatants map of every snapshot holds the
engine's own Combatant references (`new Map(this.combatants)` copies entries,
not referents), so mutating a Combatant obtained from a snapshot changes the
output of every subsequent `getSnapshot` — the snapshot is NOT a full
defensive copy.  The second conjunct evaluates the failing input: an observer
sets the hero's HP to 0 through the snapshot reference and the engine's next
snapshot view changes. -/
theorem getSnapshot_shares_combatants :
    (∀ e : EngineStateRefs, (CombatStateMachine.getSnapshot e).combatants = e.combatants)
    ∧ snapshotCombatants (CombatStateMachine.getSnapshot engineStateDemo) heapDemoMutated ≠
      snapshotCombatants (CombatStateMachine.getSnapshot engineStateDemo) heapDemo := by
  constructor
  · intro e
    rfl
  · decide

/-- Claim C5: whenever an evaluated division (resp. modulo) has right operand
0, evaluation throws `Division by zero` (resp. `Modulo by zero`); for every
binary operator — `&&` and `||` included — both operands are always evaluated
(no short-circuit), so computing the formula `0 && 5 / 0` in an empty context
throws; and a division or modulo that returns a value had a nonzero right
operand (in ℚ there is no Infinity or NaN for it to produce instead). -/
theorem compute_guards_div_mod :
    (∀ (l r : ASTNode) (ctx : FormulaContext) (left : ℚ),
        evaluate l ctx = .ok left → evaluate r ctx = .ok 0 →
        evaluate (.BinaryOp "/" l r) ctx = .error "Division by zero")
  ∧ (∀ (l r : ASTNode) (ctx : FormulaContext) (left : ℚ),
        evaluate l ctx = .ok left → evaluate r ctx = .ok 0 →
        evaluate (.BinaryOp "%" l r) ctx = .error "Modulo by zero")
  ∧ (∀ (op : String) (l r : ASTNode) (ctx : FormulaContext) (left : ℚ) (e : String),
        evaluate l ctx = .ok left → evaluate r ctx = .error e →
        evaluate (.BinaryOp op l r) ctx = .error e)
  ∧ (∀ (op : String) (l r : ASTNode) (ctx : FormulaContext) (v rv : ℚ),
        (op = "/" ∨ op = "%") → evaluate (.BinaryOp op l r) ctx = .ok v →
        evaluate r ctx = .ok rv → rv ≠ 0)
  ∧ computeCore "0 && 5 / 0" [] = .error "Division by zero" := by
  refine ⟨?_, ?_, ?_, ?_, ?_⟩
  · intro l r ctx left hl hr
    simp [evaluate, hl, hr, applyBinaryOp]
  · intro l r ctx left hl hr
    simp [evaluate, hl, hr, applyBinaryOp]
  · intro op l r ctx left e hl hr
    simp [evaluate, hl, hr]
  · intro op l r ctx v rv hop hok hr hrv
    subst hrv
    rcases hop with hop | hop <;> subst hop <;>
      cases hE : evaluate l ctx <;> simp [evaluate, hE, hr, applyBinaryOp] at hok
  · decide

/-- Claim C9: `DamageCalculator.calculate` always returns damage ≥ 1, but
`executeSkill` halves it for a defending target via `floor(damage * 0.5)`, so
there exist attacker and defender stat combinations (Attack 1 vs Defense 10
under the default formulas) where the calculated damage is 1 and the damage
actually applied to the defending target is exactly 0, leaving its HP
unchanged — the minimum-1 floor does not hold for applied damage. -/
theorem defending_zero_damage :
    (∀ (formulas : DamageFormulas) (attacker defender : Combatant) (damageType : DamageType)
        (skillPower : ℚ) (rng : RandomSource),
        1 ≤ ((DamageCalculator.calculate formulas attacker defender damageType
          skillPower rng).1).damage)
  ∧ ((DamageCalculator.calculate damageFormulasDefault attackerWeak defenderGuarding
      .physical 100 rngVarianceMid).1).damage = 1
  ∧ (ActionExecutor.executeSkill damageFormulasDefault attackerWeak basicSlash
      [defenderGuarding] rngVarianceMid).1.effects =
      [⟨"goblin", .damage, 0, some false, Option.none⟩]
  ∧ (ActionExecutor.executeSkill damageFormulasDefault attackerWeak basicSlash
      [defenderGuarding] rngVarianceMid).2.2.1 = [defenderGuarding] := by
  refine ⟨?_, by decide, by decide, by decide⟩
  intro formulas attacker defender damageType skillPower rng
  simp [DamageCalculator.calculate]

theorem findModifier_cons (m : ActiveModifierState) (s : ModifierStack) (id : String) :
    findModifier (m :: s) id =
      if m.definition.id == id then some m else findModifier s id := by
  simp [findModifier, List.find?]
  split <;> simp_all

theorem findModifier_none_map_update (s : ModifierStack) (id : String)
    (f : ActiveModifierState → ActiveModifierState)
    (h : findModifier s id = Option.none) :
    s.map (fun m => if m.definition.id == id then f m else m) = s := by
  induction s with
  | nil => rfl
  | cons m rest ih =>
      rw [findModifier_cons] at h
      by_cases hm : (m.definition.id == id) = true
      · rw [if_pos hm] at h
        exact absurd h (by simp)
      · rw [if_neg hm] at h
        simp only [List.map_cons, if_neg hm, ih h]

theorem findModifier_append_one (s : ModifierStack) (e : ActiveModifierState) (id : String)
    (h : findModifier s id = Option.none) :
    findModifier (s ++ [e]) id = if e.definition.id == id then some e else Option.none := by
  induction s with
  | nil => simp [findModifier, List.find?]; split <;> simp_all
  | cons m rest ih =>
      rw [findModifier_cons] at h
      by_cases hm : (m.definition.id == id) = true
      · rw [if_pos hm] at h
        exact absurd h (by simp)
      · rw [if_neg hm] at h
        rw [List.cons_append, findModifier_cons]
        simp [hm, ih h]

theorem findModifier_map_update (s : ModifierStack) (id : String)
    (f : ActiveModifierState → ActiveModifierState)
    (hf : ∀ m, (f m).definition = m.definition) :
    findModifier (s.map (fun m => if m.definition.id == id then f m else m)) id =
      (findModifier s id).map f := by
  induction s with
  | nil => rfl
  | cons m rest ih =>
      by_cases hm : (m.definition.id == id) = true
      · simp only [List.map_cons, hm, if_pos]
        rw [findModifier_cons, findModifier_cons]
        have : (f m).definition.id == id := by rw [hf m]; exact hm
        simp [hm, this]
      · simp only [List.map_cons, hm, if_neg, Bool.not_eq_true]
        rw [findModifier_cons, findModifier_cons]
        simp only [hm]
        simpa using ih

theorem addModifier_absent (s : ModifierStack) (d : ModifierDefinition) (src : ModifierSource)
    (h : findModifier s d.id = Option.none) :
    s.addModifier d src = s ++ [⟨d, src, 1, d.duration⟩] := by
  unfold ModifierStack.addModifier
  rw [h]

theorem addModifier_present_stackable (s : ModifierStack) (d : ModifierDefinition)
    (src : ModifierSource) (m : ActiveModifierState)
    (h : findModifier s d.id = some m) (hst : d.stackable = true) :
    s.addModifier d src =
      s.map (fun x => if x.definition.id == d.id then stackUpdate d x else x) := by
  unfold ModifierStack.addModifier
  rw [h, hst]
  simp

theorem addModifier_present_not_stackable (s : ModifierStack) (d : ModifierDefinition)
    (src : ModifierSource) (m : ActiveModifierState)
    (h : findModifier s d.id = some m) (hst : d.stackable = false) :
    s.addModifier d src = s := by
  unfold ModifierStack.addModifier
  rw [h, hst]
  simp

theorem findModifier_addModifier_present_stackable (s : ModifierStack)
    (d : ModifierDefinition) (src : ModifierSource) (m : ActiveModifierState)
    (h : findModifier s d.id = some m) (hst : d.stackable = true) :
    findModifier (s.addModifier d src) d.id = some (stackUpdate d m) := by
  rw [addModifier_present_stackable s d src m h hst]
  rw [findModifier_map_update s d.id (stackUpdate d) (fun x => rfl)]
  rw [h]
  rfl

/-- Claim C4: a stackable modifier never exceeds its `maxStacks` cap (four
applications of a maxStacks=3 modifier yield stack count 3), every stackable
reapplication refreshes the remaining duration to the definition's declared
duration, and reapplying a non-stackable modifier is a no-op: the stack count
stays 1 and the duration keeps the first application's declared value. -/
theorem addModifier_stacking :
    (∀ (s : ModifierStack) (d : ModifierDefinition) (src : ModifierSource) (mx : ℚ),
        d.maxStacks = some mx → 1 ≤ mx →
        ModifierStack.getStackCount s d.id ≤ mx →
        ModifierStack.getStackCount (s.addModifier d src) d.id ≤ mx)
  ∧ (∀ (s : ModifierStack) (d : ModifierDefinition) (src : ModifierSource),
        d.stackable = true → d.maxStacks = some 3 →
        findModifier s d.id = Option.none →
        ModifierStack.getStackCount
          ((((s.addModifier d src).addModifier d src).addModifier d src).addModifier d src)
          d.id = 3)
  ∧ (∀ (s : ModifierStack) (d : ModifierDefinition) (src : ModifierSource)
        (m : ActiveModifierState) (dur : ℚ),
        d.stackable = true → d.duration = some dur →
        findModifier s d.id = some m →
        ModifierStack.getRemainingDuration (s.addModifier d src) d.id = some dur)
  ∧ (∀ (s : ModifierStack) (d : ModifierDefinition) (src : ModifierSource)
        (m : ActiveModifierState),
        d.stackable = false → findModifier s d.id = some m →
        s.addModifier d src = s)
  ∧ (∀ (s : ModifierStack) (d : ModifierDefinition) (src : ModifierSource),
        d.stackable = false → findModifier s d.id = Option.none →
        ModifierStack.getStackCount ((s.addModifier d src).addModifier d src) d.id = 1 ∧
        ModifierStack.getRemainingDuration ((s.addModifier d src).addModifier d src) d.id =
          d.duration) := by
  have hfind1 : ∀ (s : ModifierStack) (d : ModifierDefinition) (src : ModifierSource),
      findModifier s d.id = Option.none →
      findModifier (s.addModifier d src) d.id = some ⟨d, src, 1, d.duration⟩ := by
    intro s d src h
    rw [addModifier_absent s d src h, findModifier_append_one s _ d.id h]
    simp
  refine ⟨?_, ?_, ?_, ?_, ?_⟩
  · intro s d src mx hmx h1 hle
    cases h : findModifier s d.id with
    | none =>
        unfold ModifierStack.getStackCount
        rw [hfind1 s d src h]
        exact h1
    | some m =>
        cases hst : d.stackable with
        | true =>
            unfold ModifierStack.getStackCount
            rw [findModifier_addModifier_present_stackable s d src m h hst]
            unfold ModifierStack.getStackCount at hle
            rw [h] at hle
            simp only [stackUpdate, hmx]
            exact min_le_right _ _
        | false =>
            rw [addModifier_present_not_stackable s d src m h hst]
            exact hle
  · intro s d src hst hmx h
    have h1 := hfind1 s d src h
    have h2 := findModifier_addModifier_present_stackable _ d src _ h1 hst
    have h3 := findModifier_addModifier_present_stackable _ d src _ h2 hst
    have h4 := findModifier_addModifier_present_stackable _ d src _ h3 hst
    unfold ModifierStack.getStackCount
    rw [h4]
    simp only [stackUpdate, hmx]
    norm_num
  · intro s d src m dur hst hdur h
    have h1 := findModifier_addModifier_present_stackable s d src m h hst
    unfold ModifierStack.getRemainingDuration
    rw [h1]
    simp [stackUpdate, hdur]
  · intro s d src m hst h
    exact addModifier_present_not_stackable s d src m h hst
  · intro s d src hst h
    have h1 := hfind1 s d src h
    have h2 := addModifier_present_not_stackable _ d src _ h1 hst
    rw [h2]
    unfold ModifierStack.getStackCount ModifierStack.getRemainingDuration
    rw [h1]
    exact ⟨rfl, rfl⟩

theorem addModifier_stacking_witness :
    ModifierStack.getStackCount
      ((((emptyModifierStack.addModifier rageStackDef .buff).addModifier rageStackDef .buff
        ).addModifier rageStackDef .buff).addModifier rageStackDef .buff) "rage" = 3 ∧
    ModifierStack.getRemainingDuration
      (ModifierStack.addModifier [⟨rageStackDef, .buff, 2, some 1⟩] rageStackDef .buff)
      "rage" = some 3 ∧
    ModifierStack.getStackCount
      ((emptyModifierStack.addModifier ironSkinDef .item).addModifier ironSkinDef .item)
      "ironskin" = 1 ∧
    ModifierStack.getRemainingDuration
      ((emptyModifierStack.addModifier ironSkinDef .item).addModifier ironSkinDef .item)
      "ironskin" = some 2 ∧
    ModifierStack.getStackCount (demoModStack.addModifier rageStackDef .buff) "rage" ≤ 3 ∧
    ModifierStack.addModifier [⟨ironSkinDef, .item, 1, some 2⟩] ironSkinDef .item =
      [⟨ironSkinDef, .item, 1, some 2⟩] := by
  refine ⟨addModifier_stacking.2.1 emptyModifierStack rageStackDef .buff rfl rfl (by decide),
    addModifier_stacking.2.2.1 [⟨rageStackDef, .buff, 2, some 1⟩] rageStackDef .buff
      ⟨rageStackDef, .buff, 2, some 1⟩ 3 rfl rfl (by decide), ?_, ?_⟩
  · exact (addModifier_stacking.2.2.2.2 emptyModifierStack ironSkinDef .item rfl (by decide)).1
  · refine ⟨(addModifier_stacking.2.2.2.2 emptyModifierStack ironSkinDef .item rfl
      (by decide)).2, ?_, ?_⟩
    · exact addModifier_stacking.1 demoModStack rageStackDef .buff 3 rfl (by decide) (by decide)
    · exact addModifier_stacking.2.2.2.1 [⟨ironSkinDef, .item, 1, some 2⟩] ironSkinDef .item
        ⟨ironSkinDef, .item, 1, some 2⟩ rfl (by decide)

theorem objLookup_cons (p : String × ℚ) (rest : StatBlock) (k : String) :
    objLookup (p :: rest) k = if p.1 = k then some p.2 else objLookup rest k := rfl

theorem lookup_map_setTo_self (o : StatBlock) (k : String) (v : ℚ)
    (h : (objLookup o k).isSome) :
    objLookup (o.map (fun p => if p.1 = k then (k, v) else p)) k = some v := by
  induction o with
  | nil => simp [objLookup] at h
  | cons p rest ih =>
      by_cases hk : p.1 = k
      · simp only [List.map_cons, if_pos hk, objLookup_cons]
        simp
      · rw [objLookup_cons, if_neg hk] at h
        simp only [List.map_cons, if_neg hk, objLookup_cons, if_neg hk]
        exact ih h

theorem lookup_map_setTo_other (o : StatBlock) (k k2 : String) (v : ℚ) (h : k2 ≠ k) :
    objLookup (o.map (fun p => if p.1 = k then (k, v) else p)) k2 = objLookup o k2 := by
  induction o with
  | nil => rfl
  | cons p rest ih =>
      by_cases hk : p.1 = k
      · have hL : ¬ (k = k2) := fun hh => h hh.symm
        have hR : ¬ (p.1 = k2) := by rw [hk]; exact hL
        simp only [List.map_cons, if_pos hk, objLookup_cons, if_neg hL, if_neg hR]
        exact ih
      · simp only [List.map_cons, if_neg hk, objLookup_cons]
        by_cases h2 : p.1 = k2
        · rw [if_pos h2, if_pos h2]
        · rw [if_neg h2, if_neg h2]
          exact ih

theorem lookup_append_single_self (o : StatBlock) (k : String) (v : ℚ)
    (h : objLookup o k = Option.none) :
    objLookup (o ++ [(k, v)]) k = some v := by
  induction o with
  | nil => simp [objLookup]
  | cons p rest ih =>
      by_cases hk : p.1 = k
      · rw [objLookup_cons, if_pos hk] at h
        exact absurd h (by simp)
      · rw [objLookup_cons, if_neg hk] at h
        rw [List.cons_append, objLookup_cons, if_neg hk]
        exact ih h

theorem lookup_append_single_other (o : StatBlock) (k k2 : String) (v : ℚ) (h : k2 ≠ k) :
    objLookup (o ++ [(k, v)]) k2 = objLookup o k2 := by
  induction o with
  | nil =>
      have hL : ¬ (k = k2) := fun hh => h hh.symm
      simp [objLookup, if_neg hL]
  | cons p rest ih =>
      rw [List.cons_append, objLookup_cons, objLookup_cons]
      by_cases h2 : p.1 = k2
      · rw [if_pos h2, if_pos h2]
      · rw [if_neg h2, if_neg h2]
        exact ih

theorem objSet_lookup_self (o : StatBlock) (k : String) (v : ℚ) :
    objLookup (objSet o k v) k = some v := by
  unfold objSet
  by_cases h : (objLookup o k).isSome
  · rw [if_pos h]
    exact lookup_map_setTo_self o k v h
  · rw [if_neg h]
    exact lookup_append_single_self o k v (by
      cases hx : objLookup o k with
      | none => rfl
      | some b => rw [hx] at h; simp at h)

theorem objSet_lookup_other (o : StatBlock) (k k2 : String) (v : ℚ) (h : k2 ≠ k) :
    objLookup (objSet o k v) k2 = objLookup o k2 := by
  unfold objSet
  split
  · exact lookup_map_setTo_other o k k2 v h
  · exact lookup_append_single_other o k k2 v h

theorem bonusStepEffect_lookup (stackCount : ℚ) (acc : StatBlock × StatBlock)
    (eff : ModifierEffect) (k : String) :
    ((objLookup (bonusStepEffect stackCount acc eff).1 k).getD 0 =
      (objLookup acc.1 k).getD 0 +
        (if eff.valueType == ModifierValueType.flat && eff.stat == k then
          eff.value * stackCount else 0))
  ∧ ((objLookup (bonusStepEffect stackCount acc eff).2 k).getD 0 =
      (objLookup acc.2 k).getD 0 +
        (if eff.valueType == ModifierValueType.percent && eff.stat == k then
          eff.value * stackCount else 0)) := by
  cases hv : eff.valueType with
  | flat =>
      by_cases hs : eff.stat = k
      · constructor
        · simp [bonusStepEffect, hv, hs, objSet_lookup_self]
        · simp [bonusStepEffect, hv, hs]
      · have hne : k ≠ eff.stat := fun hh => hs hh.symm
        constructor
        · simp [bonusStepEffect, hv, hs, objSet_lookup_other _ _ _ _ hne]
        · simp [bonusStepEffect, hv, hs]
  | percent =>
      by_cases hs : eff.stat = k
      · constructor
        · simp [bonusStepEffect, hv, hs]
        · simp [bonusStepEffect, hv, hs, objSet_lookup_self]
      · have hne : k ≠ eff.stat := fun hh => hs hh.symm
        constructor
        · simp [bonusStepEffect, hv, hs]
        · simp [bonusStepEffect, hv, hs, objSet_lookup_other _ _ _ _ hne]

theorem bonusFold_lookup (stackCount : ℚ) (effects : List ModifierEffect) :
    ∀ (acc : StatBlock × StatBlock) (k : String),
    ((objLookup (effects.foldl (bonusStepEffect stackCount) acc).1 k).getD 0 =
      (objLookup acc.1 k).getD 0 +
        ((effects.filter (fun e =>
          e.valueType == ModifierValueType.flat && e.stat == k)).map
            (fun e => e.value * stackCount)).sum)
  ∧ ((objLookup (effects.foldl (bonusStepEffect stackCount) acc).2 k).getD 0 =
      (objLookup acc.2 k).getD 0 +
        ((effects.filter (fun e =>
          e.valueType == ModifierValueType.percent && e.stat == k)).map
            (fun e => e.value * stackCount)).sum) := by
  induction effects with
  | nil => intro acc k; simp
  | cons eff rest ih =>
      intro acc k
      have hstep := bonusStepEffect_lookup stackCount acc eff k
      have hih := ih (bonusStepEffect stackCount acc eff) k
      constructor
      · rw [List.foldl_cons, hih.1, hstep.1, List.filter_cons]
        by_cases hc : (eff.valueType == ModifierValueType.flat && eff.stat == k) = true
        · rw [if_pos hc, if_pos hc, List.map_cons, List.sum_cons]
          ring
        · rw [if_neg hc, if_neg hc]
          ring
      · rw [List.foldl_cons, hih.2, hstep.2, List.filter_cons]
        by_cases hc : (eff.valueType == ModifierValueType.percent && eff.stat == k) = true
        · rw [if_pos hc, if_pos hc, List.map_cons, List.sum_cons]
          ring
        · rw [if_neg hc, if_neg hc]
          ring

theorem collectBonuses_lookup (s : ModifierStack) :
    ∀ (acc : StatBlock × StatBlock) (k : String),
    ((objLookup (s.foldl bonusStepState acc).1 k).getD 0 =
      (objLookup acc.1 k).getD 0 + flatSum s k)
  ∧ ((objLookup (s.foldl bonusStepState acc).2 k).getD 0 =
      (objLookup acc.2 k).getD 0 + percentSum s k) := by
  induction s with
  | nil => intro acc k; simp [flatSum, percentSum]
  | cons st rest ih =>
      intro acc k
      have hst := bonusFold_lookup st.currentStacks st.definition.effects acc k
      have hih := ih (bonusStepState acc st) k
      constructor
      · rw [List.foldl_cons, hih.1]
        simp only [bonusStepState]
        rw [hst.1]
        simp only [flatSum, List.map_cons, List.sum_cons]
        ring
      · rw [List.foldl_cons, hih.2]
        simp only [bonusStepState]
        rw [hst.2]
        simp only [percentSum, List.map_cons, List.sum_cons]
        ring

theorem collectBonuses_flat (s : ModifierStack) (k : String) :
    (objLookup (collectBonuses s).1 k).getD 0 = flatSum s k := by
  have h := (collectBonuses_lookup s ([], []) k).1
  simpa [collectBonuses, objLookup] using h

theorem collectBonuses_percent (s : ModifierStack) (k : String) :
    (objLookup (collectBonuses s).2 k).getD 0 = percentSum s k := by
  have h := (collectBonuses_lookup s ([], []) k).2
  simpa [collectBonuses, objLookup] using h

/-- Claim C3: for every stat key of the base block, `applyToStats` returns
exactly `floor((base + flatSum) * (1 + percentSum / 100))` where the sums
range over all active modifiers (value × stack count, flat before percent);
no key absent from the base stats is introduced; and the result is
independent of the order in which the modifiers were added. -/
theorem applyToStats_formula (s : ModifierStack) (baseStats : StatBlock) :
    (∀ (k : String) (b : ℚ), objLookup baseStats k = some b →
        objLookup (s.applyToStats baseStats) k =
          some (ratFloor ((b + flatSum s k) * (1 + percentSum s k / 100))))
  ∧ ((s.applyToStats baseStats).map Prod.fst = baseStats.map Prod.fst)
  ∧ (∀ s2 : ModifierStack, s.Perm s2 →
      s.applyToStats baseStats = s2.applyToStats baseStats) := by
  refine ⟨?_, ?_, ?_⟩
  · intro k b h
    unfold ModifierStack.applyToStats
    induction baseStats with
    | nil => simp [objLookup] at h
    | cons p rest ih =>
        by_cases hk : p.1 = k
        · rw [objLookup_cons, if_pos hk] at h
          injection h with hb
          simp only [List.map_cons, objLookup_cons, if_pos hk]
          rw [hk, collectBonuses_flat, collectBonuses_percent, hb]
        · rw [objLookup_cons, if_neg hk] at h
          simp only [List.map_cons, objLookup_cons, if_neg hk]
          exact ih h
  · unfold ModifierStack.applyToStats
    rw [List.map_map]
    rfl
  · intro s2 hp
    have hf : ∀ k, flatSum s k = flatSum s2 k := by
      intro k
      exact (hp.map _).sum_eq
    have hg : ∀ k, percentSum s k = percentSum s2 k := by
      intro k
      exact (hp.map _).sum_eq
    unfold ModifierStack.applyToStats
    simp only [collectBonuses_flat, collectBonuses_percent, hf, hg]

theorem applyToStats_formula_witness :
    objLookup (demoModStack.applyToStats demoBaseStats) "Attack" = some 30 ∧
    demoModStack.applyToStats demoBaseStats = demoModStackPerm.applyToStats demoBaseStats := by
  constructor
  · have h := (applyToStats_formula demoModStack demoBaseStats).1 "Attack" 10 (by decide)
    rw [h]
    decide
  · exact (applyToStats_formula demoModStack demoBaseStats).2.2 demoModStackPerm (by decide)

/-- Claim C2, counterexample to the claim as stated: `skillZeroHpCost`
declares an HP cost of 0 and the actor has current HP 0 ≤ that cost with
sufficient MP, so the claim requires `success: false`; but the source guard
`if (skill.hpCost && ...)` skips the check for the JS-falsy cost 0 and the
call returns `success: true`. -/
theorem executeSkill_hpCost_zero_succeeds :
    skillZeroHpCost.hpCost = some 0 ∧
    actorAtZeroHp.currentHp ≤ (skillZeroHpCost.hpCost.getD 99) ∧
    ¬ (actorAtZeroHp.currentMp < skillZeroHpCost.mpCost) ∧
    (ActionExecutor.executeSkill damageFormulasDefault actorAtZeroHp skillZeroHpCost []
      rngVarianceMid).1.success = true := by
  refine ⟨rfl, by decide, by decide, by decide⟩

theorem hpCostFail_iff (skill : Skill) (actor : Combatant) :
    ((jsTruthyOpt skill.hpCost && decide (skill.hpCost.getD 0 ≥ actor.currentHp)) = true) ↔
      (∃ c, skill.hpCost = some c ∧ c ≠ 0 ∧ c ≥ actor.currentHp) := by
  cases hc : skill.hpCost with
  | none => simp [jsTruthyOpt]
  | some c =>
      simp only [jsTruthyOpt, hc, Bool.and_eq_true, bne_iff_ne, ne_eq, decide_eq_true_eq,
        Option.getD_some, Option.some.injEq]
      constructor
      · rintro ⟨hne, hge⟩
        exact ⟨c, rfl, hne, hge⟩
      · rintro ⟨c2, hc2, hne, hge⟩
        subst hc2
        exact ⟨hne, hge⟩

/-- Claim C2 as amended: if the actor's MP is below the skill's MP cost, or
the skill declares a NONZERO HP cost at or above the actor's current HP, then
`executeSkill` returns `success: false` with empty effects and killedTargets
and mutates no combatant state; otherwise it deducts the MP cost (and truthy
HP cost, if any) from the actor before dispatching on the skill type. -/
theorem executeSkill_preconditions (formulas : DamageFormulas) (actor : Combatant)
    (skill : Skill) (targets : List Combatant) (rng : RandomSource) :
    ((skill.mpCost > actor.currentMp ∨
        (∃ c, skill.hpCost = some c ∧ c ≠ 0 ∧ c ≥ actor.currentHp)) →
      ((ActionExecutor.executeSkill formulas actor skill targets rng).1.success = false ∧
       (ActionExecutor.executeSkill formulas actor skill targets rng).1.effects = [] ∧
       (ActionExecutor.executeSkill formulas actor skill targets rng).1.killedTargets = [] ∧
       (ActionExecutor.executeSkill formulas actor skill targets rng).2.1 = actor ∧
       (ActionExecutor.executeSkill formulas actor skill targets rng).2.2.1 = targets))
  ∧ (¬ (skill.mpCost > actor.currentMp ∨
        (∃ c, skill.hpCost = some c ∧ c ≠ 0 ∧ c ≥ actor.currentHp)) →
      ActionExecutor.executeSkill formulas actor skill targets rng =
        executeSkillDispatch formulas (costDeductedActor actor skill) skill targets rng) := by
  constructor
  · intro h
    by_cases h1 : skill.mpCost > actor.currentMp
    · simp [ActionExecutor.executeSkill, h1]
    · have h2 : ∃ c, skill.hpCost = some c ∧ c ≠ 0 ∧ c ≥ actor.currentHp := by
        rcases h with h | h
        · exact absurd h h1
        · exact h
      simp [ActionExecutor.executeSkill, h1, (hpCostFail_iff skill actor).mpr h2]
  · intro h
    obtain ⟨ha, hb⟩ := not_or.mp h
    have hb2 : (jsTruthyOpt skill.hpCost &&
        decide (skill.hpCost.getD 0 ≥ actor.currentHp)) = false := by
      cases hx : (jsTruthyOpt skill.hpCost && decide (skill.hpCost.getD 0 ≥ actor.currentHp)) with
      | false => rfl
      | true => exact absurd ((hpCostFail_iff skill actor).mp hx) hb
    simp [ActionExecutor.executeSkill, ha, hb2]

theorem executeSkill_preconditions_witness :
    (ActionExecutor.executeSkill damageFormulasDefault actorAtZeroHp fireballSkill []
      rngVarianceMid).1.success = false ∧
    ActionExecutor.executeSkill damageFormulasDefault heroCombatant basicSlash []
      rngVarianceMid =
      executeSkillDispatch damageFormulasDefault (costDeductedActor heroCombatant basicSlash)
        basicSlash [] rngVarianceMid := by
  constructor
  · exact ((executeSkill_preconditions damageFormulasDefault actorAtZeroHp fireballSkill []
      rngVarianceMid).1 (Or.inl (by decide))).1
  · refine (executeSkill_preconditions damageFormulasDefault heroCombatant basicSlash []
      rngVarianceMid).2 ?_
    rintro (h | ⟨c, hc, hne, hge⟩)
    · exact absurd h (by decide)
    · simp [basicSlash] at hc

theorem parse_state_independent (st : FormulaParserState) (f : String) :
    (FormulaParser.parse st f).1 = (FormulaParser.parse initParserState f).1 := by
  unfold FormulaParser.parse
  cases tokenize f with
  | error e => rfl
  | ok toks => rfl

theorem compute_state_independent (st : FormulaParserState) (f : String)
    (ctx : FormulaContext) :
    (FormulaParser.compute st f ctx).1 = computeCore f ctx := by
  have h := parse_state_independent st f
  unfold computeCore
  rcases hp : FormulaParser.parse st f with ⟨r1, s1⟩
  rcases hq : FormulaParser.parse initParserState f with ⟨r2, s2⟩
  rw [hp, hq] at h
  simp only at h
  subst h
  unfold FormulaParser.compute
  rw [hp, hq]
  cases r1 <;> rfl

theorem calculateDerivedStatsGo_state_independent (context : StatBlock)
    (l : List DerivedStatDefinition) :
    ∀ (st : FormulaParserState) (derived : StatBlock),
    (calculateDerivedStatsGo context l st derived).1 =
      calculateDerivedStatsSpecGo context l derived := by
  induction l with
  | nil => intro st derived; rfl
  | cons stat rest ih =>
      intro st derived
      unfold calculateDerivedStatsGo calculateDerivedStatsSpecGo
      have h := compute_state_independent st stat.formula
        (statBlockToCtx (objMerge context derived))
      rcases hp : FormulaParser.compute st stat.formula
        (statBlockToCtx (objMerge context derived)) with ⟨r, st1⟩
      rw [hp] at h
      simp only at h
      rw [← h]
      cases r with
      | error e => rfl
      | ok value => exact ih st1 _

/-- Claim C7: `calculateDerivedStats` is a deterministic pure function of the
primary stats and level — the singleton parser state it touches is reset on
every call, so two calls from any two parser states return identical
StatBlocks, and the result is the spec-side fold that floors each formula
value evaluated in declaration order against primary stats, Level, and the
previously computed derived stats. -/
theorem calculateDerivedStats_deterministic (config : StatEngineConfig)
    (primaryStats : StatBlock) (level : ℚ) (st st2 : FormulaParserState) :
    (StatEngine.calculateDerivedStats config st primaryStats level).1 =
      (StatEngine.calculateDerivedStats config st2 primaryStats level).1
  ∧ (StatEngine.calculateDerivedStats config st primaryStats level).1 =
      calculateDerivedStatsSpec config primaryStats level := by
  have h1 := calculateDerivedStatsGo_state_independent
    (objMerge primaryStats [("Level", level)]) config.derivedStats st []
  have h2 := calculateDerivedStatsGo_state_independent
    (objMerge primaryStats [("Level", level)]) config.derivedStats st2 []
  exact ⟨h1.trans h2.symm, h1⟩

theorem validate_true_getVariables (f : String) (h : (validateCore f).1 = true) :
    ∃ vars, getVariablesCore f = .ok vars := by
  unfold validateCore FormulaParser.validate at h
  unfold getVariablesCore FormulaParser.getVariables
  rcases hp : FormulaParser.parse initParserState f with ⟨r, s⟩
  rw [hp] at h
  cases r with
  | error e => simp at h
  | ok ast => exact ⟨collectVariables ast [], rfl⟩

theorem mem_addIfAbsent (l : List String) (x y : String) :
    y ∈ addIfAbsent l x ↔ y ∈ l ∨ y = x := by
  unfold addIfAbsent
  split
  · constructor
    · exact fun h => Or.inl h
    · rintro (h | h)
      · exact h
      · subst h; assumption
  · simp

theorem mem_foldl_addIfAbsent (l : List String) :
    ∀ (init : List String) (y : String),
    y ∈ l.foldl addIfAbsent init ↔ y ∈ init ∨ y ∈ l := by
  induction l with
  | nil => intro init y; simp
  | cons a rest ih =>
      intro init y
      rw [List.foldl_cons, ih, mem_addIfAbsent]
      simp only [List.mem_cons]
      tauto

theorem contains_iff_mem (l : List String) (v : String) :
    l.contains v = true ↔ v ∈ l := by
  simp [List.contains]

theorem validateCombatFormula_error_iff (formulaName f : String)
    (primaryIds derivedIds : List String) :
    (∃ e, validateCombatFormula formulaName f primaryIds derivedIds = .error e) ↔
      ((validateCore f).1 = false ∨
       ∃ vars v, getVariablesCore f = .ok vars ∧ v ∈ vars ∧
         ¬(v ∈ primaryIds ∨ v ∈ derivedIds ∨ v ∈ specialVars)) := by
  unfold validateCombatFormula
  rcases hv : validateCore f with ⟨b, err⟩
  cases b with
  | false => simp
  | true =>
      simp only
      have hg := validate_true_getVariables f (by rw [hv])
      rcases hg with ⟨vars, hg⟩
      rw [hg]
      simp only
      rcases hf : vars.find? (fun v =>
          !(primaryIds.contains v) && !(derivedIds.contains v) &&
            !(specialVars.contains v)) with _ | ⟨varName⟩
      · constructor
        · rintro ⟨e, he⟩
          simp at he
        · rintro (hbad | ⟨vars2, v, hg2, hmem, hnot⟩)
          · simp at hbad
          · injection hg2 with hg2
            subst hg2
            have hnone := List.find?_eq_none.mp hf v hmem
            push_neg at hnot
            obtain ⟨h1, h2, h3⟩ := hnot
            have hc1 : primaryIds.contains v = false := by
              cases hx : primaryIds.contains v with
              | false => rfl
              | true => exact absurd ((contains_iff_mem _ _).mp hx) h1
            have hc2 : derivedIds.contains v = false := by
              cases hx : derivedIds.contains v with
              | false => rfl
              | true => exact absurd ((contains_iff_mem _ _).mp hx) h2
            have hc3 : specialVars.contains v = false := by
              cases hx : specialVars.contains v with
              | false => rfl
              | true => exact absurd ((contains_iff_mem _ _).mp hx) h3
            rw [hc1, hc2, hc3] at hnone
            simp at hnone
      · constructor
        · intro _
          right
          refine ⟨vars, varName, rfl, List.mem_of_find?_eq_some hf, ?_⟩
          have hp := List.find?_some hf
          simp only [Bool.and_eq_true, Bool.not_eq_true] at hp
          rintro (h1 | h2 | h3)
          · rw [← contains_iff_mem] at h1
            rw [h1] at hp
            simp at hp
          · rw [← contains_iff_mem] at h2
            rw [h2] at hp
            simp at hp
          · rw [← contains_iff_mem] at h3
            rw [h3] at hp
            simp at hp
        · intro _
          exact ⟨_, rfl⟩

theorem validateDerivedLoop_error_iff (l : List DerivedStatDefinition) :
    ∀ avail : List String,
    (∃ e, validateDerivedLoop avail l = .error e) ↔
      (∃ i, ∃ h : i < l.length,
        ((validateCore (l.get ⟨i, h⟩).formula).1 = false ∨
         (∃ vars v, getVariablesCore (l.get ⟨i, h⟩).formula = .ok vars ∧ v ∈ vars ∧
           v ∉ (l.take i).foldl (fun acc d => addIfAbsent acc d.id) avail))) := by
  induction l with
  | nil =>
      intro avail
      simp [validateDerivedLoop]
  | cons d rest ih =>
      intro avail
      unfold validateDerivedLoop
      rcases hv : validateCore d.formula with ⟨b, err⟩
      cases b with
      | false =>
          simp only
          constructor
          · intro _
            refine ⟨0, by simp, Or.inl ?_⟩
            show (validateCore d.formula).1 = false
            rw [hv]
          · intro _
            exact ⟨_, rfl⟩
      | true =>
          obtain ⟨vars, hg⟩ := validate_true_getVariables d.formula (by rw [hv])
          rw [hg]
          simp only
          rcases hf : vars.find? (fun v => !(avail.contains v)) with _ | ⟨varName⟩
          · rw [ih (addIfAbsent avail d.id)]
            constructor
            · rintro ⟨i, h, hbad⟩
              refine ⟨i + 1, Nat.succ_lt_succ h, ?_⟩
              simpa using hbad
            · rintro ⟨i, h, hbad⟩
              cases i with
              | zero =>
                  rcases hbad with hbad | ⟨vars2, v, hg2, hmem, hnot⟩
                  · rw [show (d :: rest).get ⟨0, h⟩ = d from rfl, hv] at hbad
                    simp at hbad
                  · rw [show (d :: rest).get ⟨0, h⟩ = d from rfl, hg] at hg2
                    injection hg2 with hg2
                    subst hg2
                    have hnone := List.find?_eq_none.mp hf v hmem
                    simp only [List.take_zero, List.foldl_nil] at hnot
                    have : avail.contains v = false := by
                      cases hx : avail.contains v with
                      | false => rfl
                      | true => exact absurd ((contains_iff_mem _ _).mp hx) hnot
                    rw [this] at hnone
                    simp at hnone
              | succ j =>
                  refine ⟨j, Nat.lt_of_succ_lt_succ h, ?_⟩
                  simpa using hbad
          · constructor
            · intro _
              refine ⟨0, by simp, Or.inr ⟨vars, varName, ?_, ?_, ?_⟩⟩
              · show getVariablesCore d.formula = Except.ok vars
                exact hg
              · exact List.mem_of_find?_eq_some hf
              · have hp := List.find?_some hf
                simp only [Bool.not_eq_true] at hp
                simp only [List.take_zero, List.foldl_nil]
                intro hmem
                rw [← contains_iff_mem] at hmem
                rw [hmem] at hp
                simp at hp
            · intro _
              exact ⟨_, rfl⟩

theorem validateConfig_split (config : StatEngineConfig) :
    (∃ e, validateConfig config = .error e) ↔
      ((∃ e, validateDerivedLoop
          ((config.primaryStats.map (fun s => s.id)).foldl addIfAbsent ["Level"])
          config.derivedStats = .error e) ∨
       (∃ e, validateCombatFormula "physicalDamage" config.combatFormulas.physicalDamage
          (config.primaryStats.map (fun s => s.id))
          (config.derivedStats.map (fun s => s.id)) = .error e) ∨
       (∃ e, validateCombatFormula "magicDamage" config.combatFormulas.magicDamage
          (config.primaryStats.map (fun s => s.id))
          (config.derivedStats.map (fun s => s.id)) = .error e) ∨
       (∃ e, validateCombatFormula "criticalCheck" config.combatFormulas.criticalCheck
          (config.primaryStats.map (fun s => s.id))
          (config.derivedStats.map (fun s => s.id)) = .error e) ∨
       (∃ e, validateCombatFormula "turnOrder" config.combatFormulas.turnOrder
          (config.primaryStats.map (fun s => s.id))
          (config.derivedStats.map (fun s => s.id)) = .error e)) := by
  simp only [validateConfig]
  rcases h1 : validateDerivedLoop
      ((config.primaryStats.map (fun s => s.id)).foldl addIfAbsent ["Level"])
      config.derivedStats with e1 | u1
  · simp [h1]
  · simp only [h1]
    rcases h2 : validateCombatFormula "physicalDamage" config.combatFormulas.physicalDamage
        (config.primaryStats.map (fun s => s.id))
        (config.derivedStats.map (fun s => s.id)) with e2 | u2
    · simp [h2]
    · simp only [h2]
      rcases h3 : validateCombatFormula "magicDamage" config.combatFormulas.magicDamage
          (config.primaryStats.map (fun s => s.id))
          (config.derivedStats.map (fun s => s.id)) with e3 | u3
      · simp [h3]
      · simp only [h3]
        rcases h4 : validateCombatFormula "criticalCheck" config.combatFormulas.criticalCheck
            (config.primaryStats.map (fun s => s.id))
            (config.derivedStats.map (fun s => s.id)) with e4 | u4
        · simp [h4]
        · simp only [h4]
          rcases h5 : validateCombatFormula "turnOrder" config.combatFormulas.turnOrder
              (config.primaryStats.map (fun s => s.id))
              (config.derivedStats.map (fun s => s.id)) with e5 | u5
          · simp [h5]
          · simp [h5]

/-- Claim C6: constructing a StatEngine throws if and only if some formula
fails to parse, or some derived-stat formula references a variable that is
not a primary stat id, `Level`, or an earlier-declared derived stat id, or
some combat formula references a variable outside the primary/derived ids
and the special tokens EnemyDef/EnemyRes/EnemySpeed/EnemyEvasion/Level. -/
theorem validateConfig_error_iff (config : StatEngineConfig) :
    (∃ e, validateConfig config = .error e) ↔ specStatEngineConstructorThrows config := by
  have hmemAvail : ∀ (i : Nat) (v : String),
      v ∈ (config.derivedStats.take i).foldl (fun acc d => addIfAbsent acc d.id)
          ((config.primaryStats.map (fun s => s.id)).foldl addIfAbsent ["Level"]) ↔
        v ∈ derivedAllowedVars config i := by
    intro i v
    rw [← List.foldl_map (fun d : DerivedStatDefinition => d.id) addIfAbsent]
    rw [mem_foldl_addIfAbsent, mem_foldl_addIfAbsent]
    simp only [derivedAllowedVars, List.mem_cons, List.mem_append, List.mem_singleton]
    tauto
  have hcv : ∀ v : String, (¬(v ∈ config.primaryStats.map (fun s => s.id) ∨
      v ∈ config.derivedStats.map (fun s => s.id) ∨ v ∈ specialVars)) ↔
      v ∉ combatAllowedVars config := by
    intro v
    simp only [combatAllowedVars, List.mem_append]
    tauto
  rw [validateConfig_split, validateDerivedLoop_error_iff,
    validateCombatFormula_error_iff, validateCombatFormula_error_iff,
    validateCombatFormula_error_iff, validateCombatFormula_error_iff]
  unfold specStatEngineConstructorThrows
  have hcs : ∀ f : String, f ∈ combatFormulaList config →
      ((validateCore f).1 = false ∨
       ∃ vars v, getVariablesCore f = .ok vars ∧ v ∈ vars ∧
         ¬(v ∈ config.primaryStats.map (fun s => s.id) ∨
           v ∈ config.derivedStats.map (fun s => s.id) ∨ v ∈ specialVars)) →
      ((∃ d ∈ config.derivedStats, (validateCore d.formula).1 = false) ∨
       (∃ f2 ∈ combatFormulaList config, (validateCore f2).1 = false) ∨
       (∃ i, ∃ h : i < config.derivedStats.length, ∃ vars v,
         getVariablesCore (config.derivedStats.get ⟨i, h⟩).formula = .ok vars ∧
         v ∈ vars ∧ v ∉ derivedAllowedVars config i) ∨
       (∃ f2 ∈ combatFormulaList config, ∃ vars v,
         getVariablesCore f2 = .ok vars ∧ v ∈ vars ∧ v ∉ combatAllowedVars config)) := by
    intro f hmem hf
    rcases hf with hf | ⟨vars, v, hg, hvv, hnot⟩
    · exact Or.inr (Or.inl ⟨f, hmem, hf⟩)
    · exact Or.inr (Or.inr (Or.inr ⟨f, hmem, vars, v, hg, hvv, (hcv v).mp hnot⟩))
  constructor
  · rintro (⟨i, h, hA | hB⟩ | h2 | h3 | h4 | h5)
    · exact Or.inl ⟨_, List.get_mem _ _ _, hA⟩
    · obtain ⟨vars, v, hg, hvv, hnot⟩ := hB
      exact Or.inr (Or.inr (Or.inl
        ⟨i, h, vars, v, hg, hvv, fun hmem => hnot ((hmemAvail i v).mpr hmem)⟩))
    · exact hcs _ (by simp [combatFormulaList]) h2
    · exact hcs _ (by simp [combatFormulaList]) h3
    · exact hcs _ (by simp [combatFormulaList]) h4
    · exact hcs _ (by simp [combatFormulaList]) h5
  · rintro (⟨d, hd, hfalse⟩ | ⟨f, hf, hfalse⟩ | ⟨i, h, vars, v, hg, hvv, hnot⟩ |
      ⟨f, hf, vars, v, hg, hvv, hnot⟩)
    · obtain ⟨n, hn⟩ := List.mem_iff_get.mp hd
      exact Or.inl ⟨n.1, n.2, Or.inl (by rw [show config.derivedStats.get ⟨n.1, n.2⟩ =
        config.derivedStats.get n from rfl, hn]; exact hfalse)⟩
    · simp only [combatFormulaList, List.mem_cons, List.not_mem_nil, or_false] at hf
      rcases hf with hf | hf | hf | hf
      all_goals subst hf
      · exact Or.inr (Or.inl (Or.inl hfalse))
      · exact Or.inr (Or.inr (Or.inl (Or.inl hfalse)))
      · exact Or.inr (Or.inr (Or.inr (Or.inl (Or.inl hfalse))))
      · exact Or.inr (Or.inr (Or.inr (Or.inr (Or.inl hfalse))))
    · exact Or.inl ⟨i, h, Or.inr
        ⟨vars, v, hg, hvv, fun hmem => hnot ((hmemAvail i v).mp hmem)⟩⟩
    · simp only [combatFormulaList, List.mem_cons, List.not_mem_nil, or_false] at hf
      have hx : ∃ vars2 v2, getVariablesCore f = .ok vars2 ∧ v2 ∈ vars2 ∧
          ¬(v2 ∈ config.primaryStats.map (fun s => s.id) ∨
            v2 ∈ config.derivedStats.map (fun s => s.id) ∨ v2 ∈ specialVars) :=
        ⟨vars, v, hg, hvv, (hcv v).mpr hnot⟩
      rcases hf with hf | hf | hf | hf
      all_goals subst hf
      · exact Or.inr (Or.inl (Or.inr hx))
      · exact Or.inr (Or.inr (Or.inl (Or.inr hx)))
      · exact Or.inr (Or.inr (Or.inr (Or.inl (Or.inr hx))))
      · exact Or.inr (Or.inr (Or.inr (Or.inr (Or.inr hx))))

theorem compute_guards_div_mod_witness :
    evaluate (.BinaryOp "/" (.Number 1) (.Number 0)) [] = .error "Division by zero" ∧
    evaluate (.BinaryOp "%" (.Number 7) (.Number 0)) [] = .error "Modulo by zero" ∧
    evaluate (.BinaryOp "&&" (.Number 0) (.Identifier "x")) [] =
      .error "Unknown variable: x" ∧
    (5 : ℚ) ≠ 0 := by
  refine ⟨compute_guards_div_mod.1 (.Number 1) (.Number 0) [] 1 rfl rfl,
    compute_guards_div_mod.2.1 (.Number 7) (.Number 0) [] 7 rfl rfl,
    compute_guards_div_mod.2.2.1 "&&" (.Number 0) (.Identifier "x") [] 0
      "Unknown variable: x" rfl rfl,
    compute_guards_div_mod.2.2.2.1 "/" (.Number 1) (.Number 5) [] (1/5) 5
      (Or.inl rfl) (by decide) rfl⟩
